import Mathlib

/-!
Verification of the query-dispatch and expertise-scoring core of the
software-project bot (files `mongodb_connector.py`, `event_handler.py`,
`function_registry.py`).

The MongoDB layer is shallowly embedded: a BSON-like value type `BVal`
models documents, a small query structure models exactly the query
dictionaries the connector builds, and each connector method becomes a
Lean function over an immutable database snapshot.  Fallible Python code
(a `try`/`except` block returning `{"error": str(e)}`) becomes
`Except String`.
-/

set_option linter.unusedVariables false

namespace SPB

/-- BSON-like value: the values that can occur in a stored document or be
passed as an argument.  `oid` is a MongoDB ObjectId carrying its 24-char
lowercase hex string; `dt` is a `datetime.datetime` carrying its ISO-8601
string (the embedding identifies a datetime with its `isoformat()`). -/
inductive BVal where
  | null
  | bool (b : Bool)
  | int (n : Int)
  | str (s : String)
  | oid (s : String)
  | dt (s : String)
  | arr (xs : List BVal)
  | obj (fs : List (String × BVal))

/-- A stored document: an ordered association list of fields (Python dict). -/
abbrev Doc := List (String × BVal)

/-- Field lookup in a document (Python `doc[key]` / `key in doc`); keys in a
Python dict are unique, so first match is the match. -/
def getField : Doc → String → Option BVal
  | [], _ => none
  | (k, v) :: t, key => if k == key then some v else getField t key

mutual

/-- Structural equality of BSON values (Python/BSON `==`; ObjectId equality
is equality of the underlying bytes, modelled as equality of the canonical
hex strings). -/
def beqV : BVal → BVal → Bool
  | .null, .null => true
  | .bool a, .bool b => a == b
  | .int a, .int b => a == b
  | .str a, .str b => a == b
  | .oid a, .oid b => a == b
  | .dt a, .dt b => a == b
  | .arr a, .arr b => beqL a b
  | .obj a, .obj b => beqF a b
  | _, _ => false

def beqL : List BVal → List BVal → Bool
  | [], [] => true
  | x :: xs, y :: ys => beqV x y && beqL xs ys
  | _, _ => false

def beqF : List (String × BVal) → List (String × BVal) → Bool
  | [], [] => true
  | (k, v) :: xs, (l, w) :: ys => k == l && beqV v w && beqF xs ys
  | _, _ => false

end

mutual

/-- `serialize_mongo_doc` (mongodb_connector.py:43-62): recursively turn a
value into a JSON-serializable one — lists and dicts are rebuilt
element-wise, an ObjectId becomes `str(doc)` (its hex string), a datetime
becomes `doc.isoformat()`, everything else passes through.  The Python
function builds fresh lists/dicts, so it never mutates its input; the Lean
embedding is a pure function, which captures that directly. -/
def serialize_mongo_doc : BVal → BVal
  | .arr xs => .arr (serializeList xs)
  | .obj fs => .obj (serializeFields fs)
  | .oid s => .str s
  | .dt s => .str s
  | v => v

def serializeList : List BVal → List BVal
  | [] => []
  | x :: t => serialize_mongo_doc x :: serializeList t

def serializeFields : List (String × BVal) → List (String × BVal)
  | [] => []
  | (k, v) :: t => (k, serialize_mongo_doc v) :: serializeFields t

end

mutual

/-- A value is plain when it contains no store-native ObjectId or datetime
at any depth: only null/booleans/numbers/strings/sequences/mappings. -/
def isPlainV : BVal → Bool
  | .oid _ => false
  | .dt _ => false
  | .arr xs => isPlainL xs
  | .obj fs => isPlainF fs
  | _ => true

def isPlainL : List BVal → Bool
  | [] => true
  | x :: t => isPlainV x && isPlainL t

def isPlainF : List (String × BVal) → Bool
  | [] => true
  | (_, v) :: t => isPlainV v && isPlainF t

end

mutual

theorem serialize_plain_v : ∀ v, isPlainV (serialize_mongo_doc v) = true
  | .null => rfl
  | .bool _ => rfl
  | .int _ => rfl
  | .str _ => rfl
  | .oid _ => rfl
  | .dt _ => rfl
  | .arr xs => serialize_plain_l xs
  | .obj fs => serialize_plain_f fs

theorem serialize_plain_l : ∀ xs, isPlainL (serializeList xs) = true
  | [] => rfl
  | x :: t => by
      simp only [serializeList, isPlainL, Bool.and_eq_true]
      exact ⟨serialize_plain_v x, serialize_plain_l t⟩

theorem serialize_plain_f : ∀ fs, isPlainF (serializeFields fs) = true
  | [] => rfl
  | (k, v) :: t => by
      simp only [serializeFields, isPlainF, Bool.and_eq_true]
      exact ⟨serialize_plain_v v, serialize_plain_f t⟩

end

mutual

theorem serialize_idem_v :
    ∀ v, serialize_mongo_doc (serialize_mongo_doc v) = serialize_mongo_doc v
  | .null => rfl
  | .bool _ => rfl
  | .int _ => rfl
  | .str _ => rfl
  | .oid _ => rfl
  | .dt _ => rfl
  | .arr xs => by simp only [serialize_mongo_doc, serialize_idem_l xs]
  | .obj fs => by simp only [serialize_mongo_doc, serialize_idem_f fs]

theorem serialize_idem_l :
    ∀ xs, serializeList (serializeList xs) = serializeList xs
  | [] => rfl
  | x :: t => by
      simp only [serializeList, serialize_idem_v x, serialize_idem_l t]

theorem serialize_idem_f :
    ∀ fs, serializeFields (serializeFields fs) = serializeFields fs
  | [] => rfl
  | (k, v) :: t => by
      simp only [serializeFields, serialize_idem_v v, serialize_idem_f t]

end

theorem serializeList_length : ∀ xs, (serializeList xs).length = xs.length
  | [] => rfl
  | x :: t => by simp only [serializeList, List.length_cons, serializeList_length t]

theorem serializeFields_keys :
    ∀ fs : List (String × BVal), (serializeFields fs).map Prod.fst = fs.map Prod.fst
  | [] => rfl
  | (k, v) :: t => by
      simp only [serializeFields, List.map_cons, serializeFields_keys t]

/-- Python truthiness of a value (`if x:`): None/False/0/empty string or
container are falsy; an ObjectId or datetime object is always truthy. -/
def truthy : BVal → Bool
  | .null => false
  | .bool b => b
  | .int n => n != 0
  | .str s => !s.isEmpty
  | .oid _ => true
  | .dt _ => true
  | .arr xs => !xs.isEmpty
  | .obj fs => !fs.isEmpty

/-- Python truthiness of an `Optional[str]` argument (`if status:`). -/
def truthyOS : Option String → Bool
  | none => false
  | some s => !s.isEmpty

/-- Python `str(x)` for the scalar values the connector actually converts
(serialized assignee identifiers: strings, numbers, booleans, None).
`str()` of a list/dict (Python repr) is not modelled — no connector code
path that a claim covers applies `str` to a container. -/
def pyStr : BVal → String
  | .null => "None"
  | .bool true => "True"
  | .bool false => "False"
  | .int n => toString n
  | .str s => s
  | .oid s => s
  | .dt s => s
  | .arr _ => "<sequence>"
  | .obj _ => "<mapping>"

/-- Python `s[-4:]`: the last four characters (the whole string when it is
shorter than four characters). -/
def lastFour (s : String) : String :=
  ⟨s.toList.drop (s.toList.length - 4)⟩

/-- ASCII lower-casing of one character (model of Python `str.lower` /
the regex `i` option over the ASCII range, which is all the embedding
needs). -/
def lowerChar (c : Char) : Char :=
  if 'A' ≤ c && c ≤ 'Z' then Char.ofNat (c.toNat + 32) else c

/-- ASCII lower-casing of a string. -/
def lowerStr (s : String) : String := ⟨s.toList.map lowerChar⟩

/-- A hexadecimal digit. -/
def isHexChar (c : Char) : Bool :=
  c.isDigit || ('a' ≤ c && c ≤ 'f') || ('A' ≤ c && c ≤ 'F')

/-- `bson.ObjectId.is_valid` on a string: exactly 24 hexadecimal digits. -/
def isValidOid (s : String) : Bool :=
  s.length == 24 && s.toList.all isHexChar

/-- `ObjectId(x) if ObjectId.is_valid(x) else x` (mongodb_connector.py:103
and the parallel lines): a valid 24-hex-digit string becomes the ObjectId
with those bytes (canonical lowercase hex); an ObjectId stays itself;
anything else passes through unchanged. -/
def normalizeId : BVal → BVal
  | .str s => if isValidOid s then .oid (lowerStr s) else .str s
  | v => v

/-- First-occurrence deduplication with an explicit seen-accumulator
(model of Python `list({... set comprehension ...})`; CPython set
iteration order is unspecified, the embedding fixes first-occurrence
order, which is all any claim depends on up to membership and length). -/
def dedupAux : List BVal → List BVal → List BVal
  | [], _ => []
  | x :: t, seen =>
      if seen.any (fun y => beqV y x) then dedupAux t seen
      else x :: dedupAux t (x :: seen)

def dedupB (l : List BVal) : List BVal := dedupAux l []

/-- A field condition inside a MongoDB query document. -/
inductive QVal where
  | lit (v : BVal)
  | inList (vs : List BVal)
  | regexI (pat : String)

/-- One `field: condition` pair of a query document. -/
structure FieldCond where
  field : String
  cond : QVal

/-- One conjunct of a query: either a single field condition or an `$or`
of field conditions — exactly the shapes the connector builds. -/
inductive Clause where
  | single (fc : FieldCond)
  | anyOf (fcs : List FieldCond)

/-- A MongoDB query document as the connector builds it: a conjunction of
clauses (a Python dict of field conditions is the conjunction of its
entries; `{"$and": [...]}` of single-field documents likewise). -/
abbrev Query := List Clause

/-- MongoDB equality match of a stored field value against a query value:
equal, or the stored value is an array one of whose elements is equal. -/
def eqMatch (fv v : BVal) : Bool :=
  beqV fv v ||
    (match fv with
     | .arr xs => xs.any (fun x => beqV x v)
     | _ => false)

/-- Regular-expression abstract syntax, covering the PCRE fragment the
embedding models: empty string, single character, any-character dot,
concatenation, alternation, Kleene star, plus a never-matching regex
(needed for derivatives). -/
inductive RE where
  | fail
  | eps
  | ch (c : Char)
  | dot
  | cat (a b : RE)
  | alt (a b : RE)
  | star (a : RE)

def nullable : RE → Bool
  | .fail => false
  | .eps => true
  | .ch _ => false
  | .dot => false
  | .cat a b => nullable a && nullable b
  | .alt a b => nullable a || nullable b
  | .star _ => true

/-- Brzozowski derivative of a regex with respect to one character. -/
def derivRE : RE → Char → RE
  | .fail, _ => .fail
  | .eps, _ => .fail
  | .ch c, x => if c == x then .eps else .fail
  | .dot, _ => .eps
  | .cat a b, x =>
      if nullable a then .alt (.cat (derivRE a x) b) (derivRE b x)
      else .cat (derivRE a x) b
  | .alt a b, x => .alt (derivRE a x) (derivRE b x)
  | .star a, x => .cat (derivRE a x) (.star a)

/-- Whole-list regex match via repeated derivatives. -/
def rmatch (r : RE) : List Char → Bool
  | [] => nullable r
  | c :: t => rmatch (derivRE r c) t

/-- Unanchored search (`re.search` / MongoDB `$regex`): the regex matches
some contiguous substring. -/
def rsearch (r : RE) (cs : List Char) : Bool :=
  rmatch (.cat (.star .dot) (.cat r (.star .dot))) cs

/-- Trailing repetition operators `*`, `+`, `?` after an atom. -/
def applyPost : RE → List Char → RE × List Char
  | r, '*' :: t => applyPost (.star r) t
  | r, '+' :: t => applyPost (.cat r (.star r)) t
  | r, '?' :: t => applyPost (.alt r .eps) t
  | r, rest => (r, rest)

mutual

/-- Fuel-indexed recursive-descent pattern reader, alternation level. -/
def parseAlt : Nat → List Char → Option (RE × List Char)
  | 0, _ => none
  | Nat.succ f, cs =>
    match parseCat f cs with
    | none => none
    | some (r, rest) =>
      match rest with
      | '|' :: rest2 =>
        match parseAlt f rest2 with
        | none => none
        | some (r2, rest3) => some (.alt r r2, rest3)
      | _ => some (r, rest)

/-- Concatenation level: a maximal run of repeated atoms. -/
def parseCat : Nat → List Char → Option (RE × List Char)
  | 0, _ => none
  | Nat.succ f, cs =>
    match cs with
    | [] => some (.eps, [])
    | c :: _ =>
      if c == '|' || c == ')' then some (.eps, cs)
      else
        match parseRep f cs with
        | none => none
        | some (r, rest) =>
          match parseCat f rest with
          | none => none
          | some (r2, rest2) => some (.cat r r2, rest2)

/-- One atom with its trailing repetition operators. -/
def parseRep : Nat → List Char → Option (RE × List Char)
  | 0, _ => none
  | Nat.succ f, cs =>
    match parseAtom f cs with
    | none => none
    | some (r, rest) => some (applyPost r rest)

/-- Atom level: group, escaped punctuation, dot, or literal character.
Constructs the embedding does not model (character classes `[...]`,
counted repetition, anchors, letter/digit escapes such as a digit-class
escape) make the whole pattern unsupported rather than being silently
misread. -/
def parseAtom : Nat → List Char → Option (RE × List Char)
  | 0, _ => none
  | Nat.succ f, cs =>
    match cs with
    | [] => none
    | '(' :: t =>
      match parseAlt f t with
      | none => none
      | some (r, rest) =>
        match rest with
        | ')' :: rest2 => some (r, rest2)
        | _ => none
    | '\\' :: c :: t =>
      if c.isAlpha || c.isDigit then none else some (.ch c, t)
    | ['\\'] => none
    | '.' :: t => some (.dot, t)
    | c :: t =>
      if c == '|' || c == ')' || c == '*' || c == '+' || c == '?' ||
          c == '[' || c == ']' || c == '{' || c == '}' || c == '^' || c == '$'
      then none
      else some (.ch c, t)

end

/-- Read a whole pattern string into a regex; `none` when the pattern uses
an unmodelled construct or is ill-formed.  Every nesting level of the
reader consumes at least one character, so the fuel suffices. -/
def parseRE (pat : String) : Option RE :=
  let cs := pat.toList
  match parseAlt (4 * cs.length + 8) cs with
  | some (r, []) => some r
  | _ => none

/-- MongoDB `{"$regex": pat, "$options": "i"}` applied to a string field:
case-insensitive unanchored regex search, modelled by folding both sides
to lower case.  A pattern the embedding cannot read yields `false` here;
the real driver would raise on an ill-formed pattern (caught into an
`error` result), and theorems about regex matching carry a
pattern-validity hypothesis instead. -/
def regexSearchI (pat s : String) : Bool :=
  match parseRE (lowerStr pat) with
  | some r => rsearch r (lowerStr s).toList
  | none => false

def startsWithL : List Char → List Char → Bool
  | [], _ => true
  | _ :: _, [] => false
  | a :: as, b :: bs => a == b && startsWithL as bs

def hasInfixB : List Char → List Char → Bool
  | n, [] => n.isEmpty
  | n, h :: t => startsWithL n (h :: t) || hasInfixB n t

/-- Case-insensitive substring containment — the reading the specification
text gives of the match ("contains the argument as a case-insensitive
substring"). -/
def substrI (needle hay : String) : Bool :=
  hasInfixB (lowerStr needle).toList (lowerStr hay).toList

/-- Evaluate one field condition against the (possibly absent) stored
field value, with MongoDB semantics: equality-with-null also matches an
absent field, `$in` matches if any listed value matches, `$regex` applies
only to string values. -/
def evalQVal : Option BVal → QVal → Bool
  | some fv, .lit v => eqMatch fv v
  | none, .lit v => beqV v .null
  | some fv, .inList vs => vs.any (fun v => eqMatch fv v)
  | none, .inList vs => vs.any (fun v => beqV v .null)
  | some (.str s), .regexI pat => regexSearchI pat s
  | _, .regexI _ => false

def evalFieldCond (d : Doc) (fc : FieldCond) : Bool :=
  evalQVal (getField d fc.field) fc.cond

def evalClause (d : Doc) : Clause → Bool
  | .single fc => evalFieldCond d fc
  | .anyOf fcs => fcs.any (evalFieldCond d)

/-- A document matches a query when every clause holds. -/
def matchesQuery (d : Doc) (q : Query) : Bool :=
  q.all (evalClause d)

/-- The database snapshot: named collections of documents in insertion
(natural) order. -/
structure DB where
  colls : List (String × List Doc)

/-- `db["name"]`: the documents of a collection (a collection that does
not exist behaves as empty, as in MongoDB). -/
def DB.get (db : DB) (name : String) : List Doc :=
  match db.colls.find? (fun p => p.1 == name) with
  | some p => p.2
  | none => []

/-- `db.list_collection_names()`. -/
def DB.collNames (db : DB) : List String :=
  db.colls.map Prod.fst

/-- `collection.find(query)` in natural order. -/
def findDocs (coll : List Doc) (q : Query) : List Doc :=
  coll.filter (fun d => matchesQuery d q)

/-- `collection.find_one(query)`. -/
def findOne (coll : List Doc) (q : Query) : Option Doc :=
  (findDocs coll q).head?

/-- `collection.count_documents(query)`. -/
def countDocs (coll : List Doc) (q : Query) : Nat :=
  (findDocs coll q).length

/-- `collection.distinct(attr, query)`: distinct values of the attribute
over matching documents, array-valued fields flattened. -/
def distinctVals (coll : List Doc) (attr : String) (q : Query) : List BVal :=
  dedupB ((findDocs coll q).foldr
    (fun d acc =>
      (match getField d attr with
       | some (.arr xs) => xs
       | some v => [v]
       | none => []) ++ acc) [])

/-- Python `doc[key]`: the value, or a raised `KeyError` whose `str()` is
the quoted key (which the connector's `except` turns into the error
message). -/
def pyGetF (d : Doc) (key : String) : Except String BVal :=
  match getField d key with
  | some v => .ok v
  | none => .error ("'" ++ key ++ "'")

/-- `cursor.skip(n)`. -/
def mongoSkip (l : List Doc) (n : Nat) : List Doc := l.drop n

/-- `cursor.limit(n)`: pymongo treats a limit of 0 as "no limit". -/
def mongoLimit (l : List Doc) (n : Nat) : List Doc :=
  if n == 0 then l else l.take n

/-- Result of `fetch_project_issues` (field order as in the source dict). -/
structure FetchResult where
  issues : List BVal
  page : Nat
  page_size : Nat
  total_count : Nat

/-- `fetch_project_issues` (mongodb_connector.py:64-118).  Looks up the
project by exact name, unions its issue systems, builds the filter
dictionary (each truthy optional filter adds one condition; assignee and
reporter identifiers are passed through `ObjectId.is_valid` coercion),
then pages with `skip((page-1)*page_size).limit(page_size)` and counts
the same query without pagination. -/
def fetch_project_issues (db : DB) (project_name : String)
    (status priority issue_type : Option String)
    (assignee_id reporter_id : Option BVal)
    (page : Nat := 1) (page_size : Nat := 50) : Except String FetchResult :=
  match findOne (db.get "project") [.single ⟨"name", .lit (.str project_name)⟩] with
  | none => .error ("Project '" ++ project_name ++ "' not found.")
  | some project =>
    match pyGetF project "_id" with
    | .error e => .error e
    | .ok pid =>
      let issue_systems_list :=
        findDocs (db.get "issue_system") [.single ⟨"project_id", .lit pid⟩]
      match issue_systems_list.mapM (fun s => pyGetF s "_id") with
      | .error e => .error e
      | .ok issue_system_ids =>
        let query : Query :=
          [.single ⟨"issue_system_id", .inList issue_system_ids⟩]
          ++ (match status with
              | some s => if s.isEmpty then [] else [.single ⟨"status", .lit (.str s)⟩]
              | none => [])
          ++ (match priority with
              | some s => if s.isEmpty then [] else [.single ⟨"priority", .lit (.str s)⟩]
              | none => [])
          ++ (match issue_type with
              | some s => if s.isEmpty then [] else [.single ⟨"issue_type", .lit (.str s)⟩]
              | none => [])
          ++ (match assignee_id with
              | some v => if truthy v then [.single ⟨"assignee_id", .lit (normalizeId v)⟩] else []
              | none => [])
          ++ (match reporter_id with
              | some v => if truthy v then [.single ⟨"reporter_id", .lit (normalizeId v)⟩] else []
              | none => [])
        let skip := (page - 1) * page_size
        let issues := mongoLimit (mongoSkip (findDocs (db.get "issue") query) skip) page_size
        .ok { issues := issues.map (fun d => serialize_mongo_doc (.obj d)),
              page := page,
              page_size := page_size,
              total_count := countDocs (db.get "issue") query }

/-- Result of `count_issues`. -/
structure CountResult where
  count : Nat

/-- `count_issues` (mongodb_connector.py:120-165): identical project
resolution and filter construction as `fetch_project_issues`, then a
bare `count_documents`. -/
def count_issues (db : DB) (project_name : String)
    (status priority issue_type : Option String)
    (assignee_id reporter_id : Option BVal) : Except String CountResult :=
  match findOne (db.get "project") [.single ⟨"name", .lit (.str project_name)⟩] with
  | none => .error ("Project '" ++ project_name ++ "' not found.")
  | some project =>
    match pyGetF project "_id" with
    | .error e => .error e
    | .ok pid =>
      let issue_systems :=
        findDocs (db.get "issue_system") [.single ⟨"project_id", .lit pid⟩]
      match issue_systems.mapM (fun s => pyGetF s "_id") with
      | .error e => .error e
      | .ok issue_system_ids =>
        let query : Query :=
          [.single ⟨"issue_system_id", .inList issue_system_ids⟩]
          ++ (match status with
              | some s => if s.isEmpty then [] else [.single ⟨"status", .lit (.str s)⟩]
              | none => [])
          ++ (match priority with
              | some s => if s.isEmpty then [] else [.single ⟨"priority", .lit (.str s)⟩]
              | none => [])
          ++ (match issue_type with
              | some s => if s.isEmpty then [] else [.single ⟨"issue_type", .lit (.str s)⟩]
              | none => [])
          ++ (match assignee_id with
              | some v => if truthy v then [.single ⟨"assignee_id", .lit (normalizeId v)⟩] else []
              | none => [])
          ++ (match reporter_id with
              | some v => if truthy v then [.single ⟨"reporter_id", .lit (normalizeId v)⟩] else []
              | none => [])
        .ok { count := countDocs (db.get "issue") query }

/-- Result of `list_unique_values`. -/
structure UniqueResult where
  unique_values : List BVal

/-- `list_unique_values` (mongodb_connector.py:167-192): validate the
collection name against `list_collection_names`, then `distinct` with the
optional filter mapping (`filters if filters else \x7b\x7d`: a missing or
empty/falsy filter dictionary becomes the empty query). -/
def list_unique_values (db : DB) (collection_name attribute_name : String)
    (filters : Option Query) : Except String UniqueResult :=
  if !(db.collNames).contains collection_name then
    .error ("Collection '" ++ collection_name ++ "' does not exist.")
  else
    let query : Query :=
      match filters with
      | some f => if f.isEmpty then [] else f
      | none => []
    .ok { unique_values :=
            serializeList (distinctVals (db.get collection_name) attribute_name query) }

/-- Result of `get_project_assignees`. -/
structure AssigneesResult where
  assignees : List BVal
  count : Nat

/-- `get_project_assignees` (mongodb_connector.py:194-239): same project
resolution and filters (no assignee filter), then the set of
`assignee_id` values over issues that carry that field, serialized, with
its size. -/
def get_project_assignees (db : DB) (project_name : String)
    (status priority issue_type : Option String)
    (reporter_id : Option BVal) : Except String AssigneesResult :=
  match findOne (db.get "project") [.single ⟨"name", .lit (.str project_name)⟩] with
  | none => .error ("Project '" ++ project_name ++ "' not found.")
  | some project =>
    match pyGetF project "_id" with
    | .error e => .error e
    | .ok pid =>
      let issue_systems_list :=
        findDocs (db.get "issue_system") [.single ⟨"project_id", .lit pid⟩]
      match issue_systems_list.mapM (fun s => pyGetF s "_id") with
      | .error e => .error e
      | .ok issue_system_ids =>
        let query : Query :=
          [.single ⟨"issue_system_id", .inList issue_system_ids⟩]
          ++ (match status with
              | some s => if s.isEmpty then [] else [.single ⟨"status", .lit (.str s)⟩]
              | none => [])
          ++ (match priority with
              | some s => if s.isEmpty then [] else [.single ⟨"priority", .lit (.str s)⟩]
              | none => [])
          ++ (match issue_type with
              | some s => if s.isEmpty then [] else [.single ⟨"issue_type", .lit (.str s)⟩]
              | none => [])
          ++ (match reporter_id with
              | some v => if truthy v then [.single ⟨"reporter_id", .lit (normalizeId v)⟩] else []
              | none => [])
        let issues := findDocs (db.get "issue") query
        let assignee_ids := dedupB (issues.filterMap (fun i => getField i "assignee_id"))
        .ok { assignees := serializeList assignee_ids, count := assignee_ids.length }

/-- Result of `get_issue_details`. -/
structure DetailsResult where
  issue : BVal
  comments : List BVal
  events : List BVal
  linked_commits : List BVal

/-- `get_issue_details` (mongodb_connector.py:241-278): exact-equality
lookup on `external_id`, then comments, events and commits referencing
the found issue (a `linked_issue_ids` array field matches by MongoDB
array-element equality). -/
def get_issue_details (db : DB) (issue_identifier : String) :
    Except String DetailsResult :=
  match findOne (db.get "issue") [.single ⟨"external_id", .lit (.str issue_identifier)⟩] with
  | none => .error ("Issue matching '" ++ issue_identifier ++ "' not found.")
  | some issue =>
    match pyGetF issue "_id" with
    | .error e => .error e
    | .ok iid =>
      let comments := findDocs (db.get "issue_comment") [.single ⟨"issue_id", .lit iid⟩]
      let events := findDocs (db.get "event") [.single ⟨"issue_id", .lit iid⟩]
      let linked_commits := findDocs (db.get "commit") [.single ⟨"linked_issue_ids", .lit iid⟩]
      .ok { issue := serialize_mongo_doc (.obj issue),
            comments := comments.map (fun d => serialize_mongo_doc (.obj d)),
            events := events.map (fun d => serialize_mongo_doc (.obj d)),
            linked_commits := linked_commits.map (fun d => serialize_mongo_doc (.obj d)) }

/-- Result of `get_issue_comments`. -/
structure CommentsResult where
  comments : List BVal

/-- `get_issue_comments` (mongodb_connector.py:280-294): comments whose
`issue_id` equals the argument.  The argument is used exactly as given —
this is the one identifier argument that is not passed through the
`ObjectId.is_valid` coercion. -/
def get_issue_comments (db : DB) (issue_id : BVal) : Except String CommentsResult :=
  let comments := findDocs (db.get "issue_comment") [.single ⟨"issue_id", .lit issue_id⟩]
  .ok { comments := comments.map (fun d => serialize_mongo_doc (.obj d)) }

/-- `_get_issue_system_ids` (mongodb_connector.py:402-419): helper used by
the expertise queries; an unknown project yields the empty list (not an
error), and a system record without `_id` raises to the caller. -/
def _get_issue_system_ids (db : DB) (project_name : String) :
    Except String (List BVal) :=
  match findOne (db.get "project") [.single ⟨"name", .lit (.str project_name)⟩] with
  | none => .ok []
  | some project =>
    match pyGetF project "_id" with
    | .error e => .error e
    | .ok pid =>
      (findDocs (db.get "issue_system") [.single ⟨"project_id", .lit pid⟩]).mapM
        (fun s => pyGetF s "_id")

/-- The `component_query` dictionary (mongodb_connector.py:336-343). -/
def componentQuery (ids : List BVal) (a : BVal) (component : String) : Query :=
  [.single ⟨"issue_system_id", .inList ids⟩,
   .single ⟨"assignee_id", .lit a⟩,
   .anyOf [⟨"component", .regexI component⟩, ⟨"title", .regexI component⟩]]

/-- The `keyword_query` dictionary (mongodb_connector.py:350-357). -/
def keywordQuery (ids : List BVal) (a : BVal) (keywords : String) : Query :=
  [.single ⟨"issue_system_id", .inList ids⟩,
   .single ⟨"assignee_id", .lit a⟩,
   .anyOf [⟨"title", .regexI keywords⟩, ⟨"desc", .regexI keywords⟩]]

/-- The `resolved_query` dictionary (mongodb_connector.py:362-366). -/
def resolvedQuery (ids : List BVal) (a : BVal) : Query :=
  [.single ⟨"issue_system_id", .inList ids⟩,
   .single ⟨"assignee_id", .lit a⟩,
   .single ⟨"status", .lit (.str "Resolved")⟩]

/-- One entry of the recommendation list (field order as in the source). -/
structure Recommendation where
  developer_id : String
  developer_name : String
  expertise_score : Nat
  component_experience : Nat
  keyword_experience : Nat
  resolved_issues : Nat

/-- The per-assignee loop of `analyze_developer_expertise`
(mongodb_connector.py:321-386): skip falsy identifiers, compute the three
counts (each of the two optional ones guarded by the truthiness of its
argument, all scoped through `_get_issue_system_ids`), weight the
component count by two, and keep only positive scores.  The assignee
identifiers come from `get_project_assignees`, hence already serialized,
and are used in the queries exactly as given (no ObjectId coercion
here). -/
def analyzeLoop (db : DB) (project_name : String)
    (component keywords : Option String) :
    List BVal → Except String (List Recommendation)
  | [] => .ok []
  | a :: rest =>
    if truthy a then
      let comp_e : Except String Nat :=
        match component with
        | some c =>
          if c.isEmpty then .ok 0
          else
            match _get_issue_system_ids db project_name with
            | .error e => .error e
            | .ok ids => .ok (countDocs (db.get "issue") (componentQuery ids a c))
        | none => .ok 0
      match comp_e with
      | .error e => .error e
      | .ok component_experience =>
        let kw_e : Except String Nat :=
          match keywords with
          | some k =>
            if k.isEmpty then .ok 0
            else
              match _get_issue_system_ids db project_name with
              | .error e => .error e
              | .ok ids => .ok (countDocs (db.get "issue") (keywordQuery ids a k))
          | none => .ok 0
        match kw_e with
        | .error e => .error e
        | .ok keyword_experience =>
          match _get_issue_system_ids db project_name with
          | .error e => .error e
          | .ok ids =>
            let resolved_count := countDocs (db.get "issue") (resolvedQuery ids a)
            let expertise_score := component_experience * 2 + keyword_experience + resolved_count
            match analyzeLoop db project_name component keywords rest with
            | .error e => .error e
            | .ok rest_recs =>
              if expertise_score > 0 then
                .ok ({ developer_id := pyStr a,
                       developer_name :=
                         (match a with
                          | .str s => "Dev-" ++ lastFour s
                          | v => "Dev-" ++ pyStr v),
                       expertise_score := expertise_score,
                       component_experience := component_experience,
                       keyword_experience := keyword_experience,
                       resolved_issues := resolved_count } :: rest_recs)
              else .ok rest_recs
    else analyzeLoop db project_name component keywords rest

/-- Stable insertion into a score-descending list: an element is placed
before the first element whose score is not larger, which together with
`sortScoreDesc` reproduces the stable descending order of Python
`list.sort(key=..., reverse=True)`. -/
def insertDesc (r : Recommendation) : List Recommendation → List Recommendation
  | [] => [r]
  | x :: t =>
      if x.expertise_score ≤ r.expertise_score then r :: x :: t
      else x :: insertDesc r t

def sortScoreDesc (l : List Recommendation) : List Recommendation :=
  l.foldr insertDesc []

/-- Result of `analyze_developer_expertise`. -/
structure ExpertiseResult where
  recommendations : List Recommendation
  total_candidates : Nat

/-- `analyze_developer_expertise` (mongodb_connector.py:296-400): resolve
candidates through `get_project_assignees` (propagating its error),
score each, sort descending by score, return the first three and the
number of all positively-scored candidates. -/
def analyze_developer_expertise (db : DB) (project_name : String)
    (component keywords : Option String) : Except String ExpertiseResult :=
  match get_project_assignees db project_name none none none none with
  | .error e => .error e
  | .ok assignees_result =>
    match analyzeLoop db project_name component keywords assignees_result.assignees with
    | .error e => .error e
    | .ok recs =>
      let recommendations := sortScoreDesc recs
      .ok { recommendations := recommendations.take 3,
            total_candidates := recommendations.length }

/-- One tool call of a `requires_action` batch: call identifier, function
name, and the argument mapping (already decoded from its JSON text;
decoding is collaborator-side and not modelled). -/
structure ToolCall where
  id : String
  fname : String
  args : Doc

/-- One collected tool output.  The source wraps the result value in
`json.dumps`; the embedding keeps the structured value, which carries the
same information. -/
structure ToolOutput where
  tool_call_id : String
  output : BVal

/-- String argument lookup: `args["key"]` for a required argument (a
missing key raises `KeyError` out of the handler) or `args.get("key")`
for an optional one (`none` also when the value is JSON null).  The
agent-facing schema declares these arguments as strings; a non-string
value is outside the modelled behavior and reads as absent. -/
def argStr (args : Doc) (k : String) : Option String :=
  match getField args k with
  | some (.str s) => some s
  | _ => none

/-- Optional identifier-valued argument: passed through as the raw value
(`args.get("key")`), JSON null reading as absent. -/
def argOptVal (args : Doc) (k : String) : Option BVal :=
  match getField args k with
  | some .null => none
  | some v => some v
  | none => none

/-- `args.get("key", default)` for the pagination numbers.  Non-integer
values are outside the modelled behavior and read as the default. -/
def argNatD (args : Doc) (k : String) (d : Nat) : Nat :=
  match getField args k with
  | some (.int n) => n.toNat
  | _ => d

/-- The `filters` argument of `list_unique_values`: a JSON object read as
a conjunction of field-equality conditions (operator-valued filters are
outside the modelled behavior). -/
def argFilters (args : Doc) (k : String) : Option Query :=
  match getField args k with
  | some (.obj fs) => some (fs.map (fun p => Clause.single ⟨p.1, .lit p.2⟩))
  | _ => none

def exceptToB {α : Type} (f : α → BVal) : Except String α → BVal
  | .error e => .obj [("error", .str e)]
  | .ok x => f x

def fetchToB (r : FetchResult) : BVal :=
  .obj [("issues", .arr r.issues), ("page", .int r.page),
        ("page_size", .int r.page_size), ("total_count", .int r.total_count)]

def countToB (r : CountResult) : BVal :=
  .obj [("count", .int r.count)]

def uniqueToB (r : UniqueResult) : BVal :=
  .obj [("unique_values", .arr r.unique_values)]

def assigneesToB (r : AssigneesResult) : BVal :=
  .obj [("assignees", .arr r.assignees), ("count", .int r.count)]

def detailsToB (r : DetailsResult) : BVal :=
  .obj [("issue", r.issue), ("comments", .arr r.comments),
        ("events", .arr r.events), ("linked_commits", .arr r.linked_commits)]

def commentsToB (r : CommentsResult) : BVal :=
  .obj [("comments", .arr r.comments)]

def recToB (r : Recommendation) : BVal :=
  .obj [("developer_id", .str r.developer_id),
        ("developer_name", .str r.developer_name),
        ("expertise_score", .int r.expertise_score),
        ("component_experience", .int r.component_experience),
        ("keyword_experience", .int r.keyword_experience),
        ("resolved_issues", .int r.resolved_issues)]

def expertiseToB (r : ExpertiseResult) : BVal :=
  .obj [("recommendations", .arr (r.recommendations.map recToB)),
        ("total_candidates", .int r.total_candidates)]

/-- The result dictionary for an unrecognized function name
(event_handler.py:108). -/
def unsupportedResult : BVal :=
  .obj [("error", .str "Unsupported function call.")]

/-- The routing chain of `handle_requires_action` (event_handler.py:63-108)
for one call: pick the connector operation by function name, extract its
arguments, and package the result.  `none` models an exception escaping
the handler (there is no `try` around the loop), which only argument
extraction can cause — the final `else` arm never raises. -/
def dispatch (db : DB) (fname : String) (args : Doc) : Option BVal :=
  if fname == "fetch_project_issues" then
    (argStr args "project_name").map (fun p =>
      exceptToB fetchToB (fetch_project_issues db p
        (argStr args "status") (argStr args "priority") (argStr args "issue_type")
        (argOptVal args "assignee_id") (argOptVal args "reporter_id")
        (argNatD args "page" 1) (argNatD args "page_size" 50)))
  else if fname == "count_issues" then
    (argStr args "project_name").map (fun p =>
      exceptToB countToB (count_issues db p
        (argStr args "status") (argStr args "priority") (argStr args "issue_type")
        (argOptVal args "assignee_id") (argOptVal args "reporter_id")))
  else if fname == "list_unique_values" then
    match argStr args "collection_name", argStr args "attribute_name" with
    | some c, some a =>
        some (exceptToB uniqueToB (list_unique_values db c a (argFilters args "filters")))
    | _, _ => none
  else if fname == "get_project_assignees" then
    (argStr args "project_name").map (fun p =>
      exceptToB assigneesToB (get_project_assignees db p
        (argStr args "status") (argStr args "priority") (argStr args "issue_type")
        (argOptVal args "reporter_id")))
  else if fname == "get_issue_details" then
    (argStr args "issue_identifier").map (fun i =>
      exceptToB detailsToB (get_issue_details db i))
  else if fname == "get_issue_comments" then
    match getField args "issue_id" with
    | some v => some (exceptToB commentsToB (get_issue_comments db v))
    | none => none
  else if fname == "analyze_developer_expertise" then
    (argStr args "project_name").map (fun p =>
      exceptToB expertiseToB (analyze_developer_expertise db p
        (argStr args "component") (argStr args "keywords")))
  else
    some unsupportedResult

/-- `handle_requires_action` (event_handler.py:46-117): process the batch
in order, collecting one output per call; an exception from any one call
escapes the whole loop (modelled by `none`). -/
def handle_requires_action (db : DB) (calls : List ToolCall) :
    Option (List ToolOutput) :=
  calls.mapM (fun c => (dispatch db c.fname c.args).map (fun r => ⟨c.id, r⟩))

/-- The seven catalog operation names (function_registry.py). -/
def supportedFunctions : List String :=
  ["fetch_project_issues", "count_issues", "list_unique_values",
   "get_project_assignees", "get_issue_details", "get_issue_comments",
   "analyze_developer_expertise"]

/-! ## Specification-level predicates

The following definitions restate, from the specification's field-level
wording, what the built queries are supposed to test.  Per the data-model
section, a missing field is non-matching. -/

/-- The document's field matches the value (missing field: no match). -/
def fieldEqB (d : Doc) (f : String) (v : BVal) : Bool :=
  match getField d f with
  | some fv => eqMatch fv v
  | none => false

/-- The document's field matches one of the listed values. -/
def fieldInB (d : Doc) (f : String) (vs : List BVal) : Bool :=
  match getField d f with
  | some fv => vs.any (fun v => eqMatch fv v)
  | none => false

/-- The document's string field matches a case-insensitive regex search. -/
def fieldRegexIB (d : Doc) (f pat : String) : Bool :=
  match getField d f with
  | some (.str s) => regexSearchI pat s
  | _ => false

/-- The document's string field contains the text as a case-insensitive
substring — the specification's reading of the match. -/
def fieldSubstrIB (d : Doc) (f pat : String) : Bool :=
  match getField d f with
  | some (.str s) => substrI pat s
  | _ => false

/-- Optional exact-value filter as the specification describes it: absent
or empty-string filters do not constrain. -/
def optEqB (d : Doc) (f : String) : Option String → Bool
  | some s => if s.isEmpty then true else fieldEqB d f (.str s)
  | none => true

/-- Optional identifier filter: absent or falsy arguments do not
constrain; a given argument is normalized and compared. -/
def optIdEqB (d : Doc) (f : String) : Option BVal → Bool
  | some v => if truthy v then fieldEqB d f (normalizeId v) else true
  | none => true

/-- Specification-level issue filter: scoped to the project's issue
systems, all given filters combined with AND. -/
def specIssuePred (ids : List BVal) (status priority issue_type : Option String)
    (assignee_id reporter_id : Option BVal) (d : Doc) : Bool :=
  fieldInB d "issue_system_id" ids &&
  optEqB d "status" status &&
  optEqB d "priority" priority &&
  optEqB d "issue_type" issue_type &&
  optIdEqB d "assignee_id" assignee_id &&
  optIdEqB d "reporter_id" reporter_id

/-- Specification-level component-experience count, regex reading: issues
of the given issue systems with this assignee whose `component` or
`title` matches the text as a case-insensitive regex search. -/
def specCompCountRe (db : DB) (ids : List BVal) (a : BVal) (c : String) : Nat :=
  ((db.get "issue").filter (fun i =>
    fieldInB i "issue_system_id" ids && fieldEqB i "assignee_id" a &&
      (fieldRegexIB i "component" c || fieldRegexIB i "title" c))).length

/-- Specification-level component-experience count, substring reading (the
claim's wording). -/
def specCompCountSub (db : DB) (ids : List BVal) (a : BVal) (c : String) : Nat :=
  ((db.get "issue").filter (fun i =>
    fieldInB i "issue_system_id" ids && fieldEqB i "assignee_id" a &&
      (fieldSubstrIB i "component" c || fieldSubstrIB i "title" c))).length

/-- Specification-level keyword-experience count, regex reading, over
`title` and `desc`. -/
def specKwCountRe (db : DB) (ids : List BVal) (a : BVal) (k : String) : Nat :=
  ((db.get "issue").filter (fun i =>
    fieldInB i "issue_system_id" ids && fieldEqB i "assignee_id" a &&
      (fieldRegexIB i "title" k || fieldRegexIB i "desc" k))).length

/-- Specification-level resolved count: `status` equal to the literal
string `"Resolved"`, case-sensitively. -/
def specResolvedCount (db : DB) (ids : List BVal) (a : BVal) : Nat :=
  ((db.get "issue").filter (fun i =>
    fieldInB i "issue_system_id" ids && fieldEqB i "assignee_id" a &&
      fieldEqB i "status" (.str "Resolved"))).length

/-- The score the loop assigns to a candidate, stated over the query
counts: twice the component count plus the keyword count plus the
resolved count, optional arguments contributing zero when absent or
empty. -/
def candScore (db : DB) (ids : List BVal) (component keywords : Option String)
    (a : BVal) : Nat :=
  (match component with
   | some c => if c.isEmpty then 0 else countDocs (db.get "issue") (componentQuery ids a c)
   | none => 0) * 2 +
  (match keywords with
   | some k => if k.isEmpty then 0 else countDocs (db.get "issue") (keywordQuery ids a k)
   | none => 0) +
  countDocs (db.get "issue") (resolvedQuery ids a)

/-- The recommendation record the loop builds for a candidate. -/
def mkRec (db : DB) (ids : List BVal) (component keywords : Option String)
    (a : BVal) : Recommendation :=
  { developer_id := pyStr a,
    developer_name :=
      (match a with
       | .str s => "Dev-" ++ lastFour s
       | v => "Dev-" ++ pyStr v),
    expertise_score := candScore db ids component keywords a,
    component_experience :=
      (match component with
       | some c => if c.isEmpty then 0 else countDocs (db.get "issue") (componentQuery ids a c)
       | none => 0),
    keyword_experience :=
      (match keywords with
       | some k => if k.isEmpty then 0 else countDocs (db.get "issue") (keywordQuery ids a k)
       | none => 0),
    resolved_issues := countDocs (db.get "issue") (resolvedQuery ids a) }

/-- The pre-sort recommendation list as a pure function of the candidate
list: truthy candidates with nonzero score, in discovery order. -/
def loopRecs (db : DB) (ids : List BVal) (component keywords : Option String) :
    List BVal → List Recommendation
  | [] => []
  | a :: rest =>
      if truthy a then
        if candScore db ids component keywords a > 0 then
          mkRec db ids component keywords a :: loopRecs db ids component keywords rest
        else loopRecs db ids component keywords rest
      else loopRecs db ids component keywords rest

/-- Score-descending adjacency check. -/
def scoresDescB : List Recommendation → Bool
  | [] => true
  | [_] => true
  | a :: b :: t => (b.expertise_score ≤ a.expertise_score) && scoresDescB (b :: t)

/-! ## Concrete databases for witnesses and counterexamples -/

def oidP : BVal := .oid "aaaaaaaaaaaaaaaaaaaaaaaa"

def oidS : BVal := .oid "bbbbbbbbbbbbbbbbbbbbbbbb"

/-- An issue document of the example project. -/
def mkIssue (assignee : BVal) (title status : String) (desc : Option String) : Doc :=
  [("issue_system_id", oidS), ("assignee_id", assignee),
   ("title", .str title), ("status", .str status)]
  ++ (match desc with
      | some d => [("desc", .str d)]
      | none => [])

/-- Example store for the expertise-scoring instance: three candidates
with component/keyword/resolved counts (3,0,1), (0,2,1), (1,1,1). -/
def exdb1 : DB :=
  ⟨[("project", [[("_id", oidP), ("name", .str "proj")]]),
    ("issue_system", [[("_id", oidS), ("project_id", oidP)]]),
    ("issue",
      [mkIssue (.str "AAAA") "comp work one" "Open" none,
       mkIssue (.str "AAAA") "comp work two" "Open" none,
       mkIssue (.str "AAAA") "comp work three" "Open" none,
       mkIssue (.str "AAAA") "done" "Resolved" none,
       mkIssue (.str "BBBB") "other" "Open" (some "kw stuff"),
       mkIssue (.str "BBBB") "second" "Open" (some "kw again"),
       mkIssue (.str "BBBB") "fin" "Resolved" none,
       mkIssue (.str "CCCC") "comp thing" "Open" none,
       mkIssue (.str "CCCC") "kw thing" "Open" none,
       mkIssue (.str "CCCC") "misc" "Resolved" none])]⟩

/-- Example store with one issue whose title matches the pattern `a.c` as
a regex but not as a substring. -/
def exdb2 : DB :=
  ⟨[("project", [[("_id", oidP), ("name", .str "proj")]]),
    ("issue_system", [[("_id", oidS), ("project_id", oidP)]]),
    ("issue", [mkIssue (.str "AAAA") "abc" "Open" none])]⟩

/-- A 24-hex-digit issue identifier used for the normalization claims. -/
def hexC : String := "0123456789abcdef01234567"

/-- Example store whose single comment stores `issue_id` as an ObjectId. -/
def exdb5 : DB :=
  ⟨[("issue_comment", [[("_id", oidP), ("issue_id", .oid hexC), ("comment", .str "hi")]])]⟩

/-- Example store with one issue carrying an explicit null `assignee_id`
and one issue with the field absent. -/
def exdb6 : DB :=
  ⟨[("project", [[("_id", oidP), ("name", .str "proj")]]),
    ("issue_system", [[("_id", oidS), ("project_id", oidP)]]),
    ("issue",
      [[("issue_system_id", oidS), ("assignee_id", BVal.null), ("title", .str "a")],
       [("issue_system_id", oidS), ("title", .str "b")]])]⟩

/-! ## General lemmas about query evaluation -/

theorem matchesQuery_single_lit (d : Doc) (f : String) (v : BVal)
    (hv : beqV v .null = false) :
    matchesQuery d [.single ⟨f, .lit v⟩] = fieldEqB d f v := by
  simp only [matchesQuery, List.all_cons, List.all_nil, Bool.and_true,
    evalClause, evalFieldCond, fieldEqB]
  cases getField d f with
  | none => simp [evalQVal, hv]
  | some fv => simp [evalQVal]

theorem findOne_name_none (coll : List Doc) (p : String)
    (h : ∀ d ∈ coll, fieldEqB d "name" (.str p) = false) :
    findOne coll [.single ⟨"name", .lit (.str p)⟩] = none := by
  unfold findOne findDocs
  have hnil : coll.filter (fun d => matchesQuery d [.single ⟨"name", .lit (.str p)⟩]) = [] := by
    rw [List.filter_eq_nil_iff]
    intro d hd
    rw [matchesQuery_single_lit d "name" (.str p) rfl, h d hd]
    simp
  rw [hnil]
  rfl

theorem findOne_external_none (coll : List Doc) (iid : String)
    (h : ∀ d ∈ coll, fieldEqB d "external_id" (.str iid) = false) :
    findOne coll [.single ⟨"external_id", .lit (.str iid)⟩] = none := by
  unfold findOne findDocs
  have hnil : coll.filter
      (fun d => matchesQuery d [.single ⟨"external_id", .lit (.str iid)⟩]) = [] := by
    rw [List.filter_eq_nil_iff]
    intro d hd
    rw [matchesQuery_single_lit d "external_id" (.str iid) rfl, h d hd]
    simp
  rw [hnil]
  rfl

theorem normalizeId_idem (v : BVal) : normalizeId (normalizeId v) = normalizeId v := by
  cases v with
  | str s =>
      simp only [normalizeId]
      cases h : isValidOid s with
      | true => simp [normalizeId]
      | false => simp [normalizeId, h]
  | _ => rfl

theorem isValidOid_ne_empty (s : String) (h : isValidOid s = true) : s.isEmpty = false := by
  cases he : s.isEmpty with
  | false => rfl
  | true =>
      rw [String.isEmpty_iff] at he
      subst he
      simp [isValidOid] at h

theorem truthy_normalizeId (v : BVal) : truthy (normalizeId v) = truthy v := by
  cases v with
  | str s =>
      simp only [normalizeId]
      cases h : isValidOid s with
      | true => simp [truthy, isValidOid_ne_empty s h]
      | false => rfl
  | _ => rfl

theorem normalizeId_ne_null (v : BVal) (h : truthy v = true) :
    beqV (normalizeId v) .null = false := by
  cases v with
  | null => simp [truthy] at h
  | str s =>
      simp only [normalizeId]
      cases hv : isValidOid s with
      | true => rfl
      | false => rfl
  | _ => rfl

theorem matchesQuery_append (d : Doc) (q1 q2 : Query) :
    matchesQuery d (q1 ++ q2) = (matchesQuery d q1 && matchesQuery d q2) := by
  simp [matchesQuery, List.all_append]

theorem matchesQuery_inList (d : Doc) (f : String) (ids : List BVal)
    (hnn : ids.all (fun v => !beqV v .null) = true) :
    matchesQuery d [.single ⟨f, .inList ids⟩] = fieldInB d f ids := by
  simp only [matchesQuery, List.all_cons, List.all_nil, Bool.and_true,
    evalClause, evalFieldCond, fieldInB]
  cases getField d f with
  | some fv => simp [evalQVal]
  | none =>
      simp only [evalQVal]
      rw [List.any_eq_false]
      intro v hv
      have := List.all_eq_true.mp hnn v hv
      simpa using this

theorem matchesQuery_optStr (d : Doc) (f : String) (o : Option String) :
    matchesQuery d
      (match o with
       | some s => if s.isEmpty then [] else [Clause.single ⟨f, .lit (.str s)⟩]
       | none => []) = optEqB d f o := by
  cases o with
  | none => rfl
  | some s =>
      cases hs : s.isEmpty with
      | true => simp [optEqB, hs, matchesQuery]
      | false =>
          have h1 : (if s.isEmpty then ([] : Query)
              else [Clause.single ⟨f, .lit (.str s)⟩]) =
              [Clause.single ⟨f, .lit (.str s)⟩] := by simp [hs]
          have h2 : optEqB d f (some s) = fieldEqB d f (.str s) := by
            simp [optEqB, hs]
          show matchesQuery d (if s.isEmpty = true then []
            else [Clause.single ⟨f, .lit (.str s)⟩]) = optEqB d f (some s)
          rw [h1, h2, matchesQuery_single_lit d f (.str s) rfl]

theorem matchesQuery_optId (d : Doc) (f : String) (o : Option BVal) :
    matchesQuery d
      (match o with
       | some v => if truthy v then [Clause.single ⟨f, .lit (normalizeId v)⟩] else []
       | none => []) = optIdEqB d f o := by
  cases o with
  | none => rfl
  | some v =>
      cases ht : truthy v with
      | false => simp [optIdEqB, ht, matchesQuery]
      | true =>
          have h1 : (if truthy v then [Clause.single ⟨f, .lit (normalizeId v)⟩]
              else ([] : Query)) = [Clause.single ⟨f, .lit (normalizeId v)⟩] := by
            simp [ht]
          have h2 : optIdEqB d f (some v) = fieldEqB d f (normalizeId v) := by
            simp [optIdEqB, ht]
          show matchesQuery d (if truthy v = true
              then [Clause.single ⟨f, .lit (normalizeId v)⟩] else []) =
            optIdEqB d f (some v)
          rw [h1, h2, matchesQuery_single_lit d f (normalizeId v) (normalizeId_ne_null v ht)]

/-- The filter the fetch/count operations build evaluates, document-wise,
to the specification-level issue predicate. -/
theorem matchesQuery_issueFilter (d : Doc) (ids : List BVal)
    (st pr it : Option String) (aid rid : Option BVal)
    (hnn : ids.all (fun v => !beqV v .null) = true) :
    matchesQuery d
      ([Clause.single ⟨"issue_system_id", .inList ids⟩]
        ++ (match st with
            | some s => if s.isEmpty then [] else [Clause.single ⟨"status", .lit (.str s)⟩]
            | none => [])
        ++ (match pr with
            | some s => if s.isEmpty then [] else [Clause.single ⟨"priority", .lit (.str s)⟩]
            | none => [])
        ++ (match it with
            | some s => if s.isEmpty then [] else [Clause.single ⟨"issue_type", .lit (.str s)⟩]
            | none => [])
        ++ (match aid with
            | some v => if truthy v then [Clause.single ⟨"assignee_id", .lit (normalizeId v)⟩] else []
            | none => [])
        ++ (match rid with
            | some v => if truthy v then [Clause.single ⟨"reporter_id", .lit (normalizeId v)⟩] else []
            | none => [])) = specIssuePred ids st pr it aid rid d := by
  rw [matchesQuery_append, matchesQuery_append, matchesQuery_append,
    matchesQuery_append, matchesQuery_append,
    matchesQuery_inList d "issue_system_id" ids hnn,
    matchesQuery_optStr d "status" st, matchesQuery_optStr d "priority" pr,
    matchesQuery_optStr d "issue_type" it,
    matchesQuery_optId d "assignee_id" aid, matchesQuery_optId d "reporter_id" rid,
    specIssuePred]

/-- The filter `get_project_assignees` builds (no assignee condition)
evaluates to the specification-level predicate with no assignee filter. -/
theorem matchesQuery_assigneesFilter (d : Doc) (ids : List BVal)
    (st pr it : Option String) (rid : Option BVal)
    (hnn : ids.all (fun v => !beqV v .null) = true) :
    matchesQuery d
      ([Clause.single ⟨"issue_system_id", .inList ids⟩]
        ++ (match st with
            | some s => if s.isEmpty then [] else [Clause.single ⟨"status", .lit (.str s)⟩]
            | none => [])
        ++ (match pr with
            | some s => if s.isEmpty then [] else [Clause.single ⟨"priority", .lit (.str s)⟩]
            | none => [])
        ++ (match it with
            | some s => if s.isEmpty then [] else [Clause.single ⟨"issue_type", .lit (.str s)⟩]
            | none => [])
        ++ (match rid with
            | some v => if truthy v then [Clause.single ⟨"reporter_id", .lit (normalizeId v)⟩] else []
            | none => [])) = specIssuePred ids st pr it none rid d := by
  rw [matchesQuery_append, matchesQuery_append, matchesQuery_append,
    matchesQuery_append,
    matchesQuery_inList d "issue_system_id" ids hnn,
    matchesQuery_optStr d "status" st, matchesQuery_optStr d "priority" pr,
    matchesQuery_optStr d "issue_type" it,
    matchesQuery_optId d "reporter_id" rid,
    specIssuePred]
  simp [optIdEqB]

/-- The document list the fetch/count filter selects is the
specification-level filtered list. -/
theorem findDocs_issueFilter (l : List Doc) (ids : List BVal)
    (st pr it : Option String) (aid rid : Option BVal)
    (hnn : ids.all (fun v => !beqV v .null) = true) :
    findDocs l
      ([Clause.single ⟨"issue_system_id", .inList ids⟩]
        ++ (match st with
            | some s => if s.isEmpty then [] else [Clause.single ⟨"status", .lit (.str s)⟩]
            | none => [])
        ++ (match pr with
            | some s => if s.isEmpty then [] else [Clause.single ⟨"priority", .lit (.str s)⟩]
            | none => [])
        ++ (match it with
            | some s => if s.isEmpty then [] else [Clause.single ⟨"issue_type", .lit (.str s)⟩]
            | none => [])
        ++ (match aid with
            | some v => if truthy v then [Clause.single ⟨"assignee_id", .lit (normalizeId v)⟩] else []
            | none => [])
        ++ (match rid with
            | some v => if truthy v then [Clause.single ⟨"reporter_id", .lit (normalizeId v)⟩] else []
            | none => [])) =
      l.filter (specIssuePred ids st pr it aid rid) := by
  unfold findDocs
  exact List.filter_congr (fun d _ =>
    matchesQuery_issueFilter d ids st pr it aid rid hnn)

/-- The document list the assignees filter selects is the
specification-level filtered list (no assignee condition). -/
theorem findDocs_assigneesFilter (l : List Doc) (ids : List BVal)
    (st pr it : Option String) (rid : Option BVal)
    (hnn : ids.all (fun v => !beqV v .null) = true) :
    findDocs l
      ([Clause.single ⟨"issue_system_id", .inList ids⟩]
        ++ (match st with
            | some s => if s.isEmpty then [] else [Clause.single ⟨"status", .lit (.str s)⟩]
            | none => [])
        ++ (match pr with
            | some s => if s.isEmpty then [] else [Clause.single ⟨"priority", .lit (.str s)⟩]
            | none => [])
        ++ (match it with
            | some s => if s.isEmpty then [] else [Clause.single ⟨"issue_type", .lit (.str s)⟩]
            | none => [])
        ++ (match rid with
            | some v => if truthy v then [Clause.single ⟨"reporter_id", .lit (normalizeId v)⟩] else []
            | none => [])) =
      l.filter (specIssuePred ids st pr it none rid) := by
  unfold findDocs
  exact List.filter_congr (fun d _ =>
    matchesQuery_assigneesFilter d ids st pr it rid hnn)

/-! ## C8 — document normalization -/

/-- C8: `serialize_mongo_doc` over any nested value produces a value that
is plain (no native identifier or datetime) at every depth, is idempotent
on its own output, preserves structure (sequences element-wise with the
same length, mappings value-wise with the same keys), converts an
ObjectId to its canonical string and a datetime to its ISO string, and
leaves the other scalars unchanged.  (Non-mutation holds because the
source builds fresh lists/dicts; the pure embedding reflects it.) -/
theorem c8_serialize_normalization :
    (∀ v, isPlainV (serialize_mongo_doc v) = true) ∧
    (∀ v, serialize_mongo_doc (serialize_mongo_doc v) = serialize_mongo_doc v) ∧
    (∀ xs, serialize_mongo_doc (.arr xs) = .arr (serializeList xs)) ∧
    (∀ xs, (serializeList xs).length = xs.length) ∧
    (∀ fs, serialize_mongo_doc (.obj fs) = .obj (serializeFields fs)) ∧
    (∀ fs, (serializeFields fs).map Prod.fst = fs.map Prod.fst) ∧
    (∀ s, serialize_mongo_doc (.oid s) = .str s) ∧
    (∀ s, serialize_mongo_doc (.dt s) = .str s) ∧
    serialize_mongo_doc .null = .null ∧
    (∀ b, serialize_mongo_doc (.bool b) = .bool b) ∧
    (∀ n, serialize_mongo_doc (.int n) = .int n) ∧
    (∀ s, serialize_mongo_doc (.str s) = .str s) :=
  ⟨serialize_plain_v, serialize_idem_v, fun _ => rfl, serializeList_length,
   fun _ => rfl, serializeFields_keys, fun _ => rfl, fun _ => rfl, rfl,
   fun _ => rfl, fun _ => rfl, fun _ => rfl⟩

/-! ## C4 — not-found errors name the missing entity -/

/-- C4: when no stored project matches the name, each project-scoped
operation returns exactly the error naming that project; when no issue
matches the external identifier, `get_issue_details` returns the error
naming that identifier; when the collection does not exist,
`list_unique_values` returns the error naming that collection. -/
theorem c4_not_found_errors (db : DB) (p iid cname : String)
    (hp : ∀ d ∈ db.get "project", fieldEqB d "name" (.str p) = false)
    (hi : ∀ d ∈ db.get "issue", fieldEqB d "external_id" (.str iid) = false)
    (hc : (db.collNames).contains cname = false) :
    (∀ st pr it aid rid pg sz,
      fetch_project_issues db p st pr it aid rid pg sz =
        .error ("Project '" ++ p ++ "' not found.")) ∧
    (∀ st pr it aid rid,
      count_issues db p st pr it aid rid =
        .error ("Project '" ++ p ++ "' not found.")) ∧
    (∀ st pr it rid,
      get_project_assignees db p st pr it rid =
        .error ("Project '" ++ p ++ "' not found.")) ∧
    (∀ comp kw,
      analyze_developer_expertise db p comp kw =
        .error ("Project '" ++ p ++ "' not found.")) ∧
    get_issue_details db iid = .error ("Issue matching '" ++ iid ++ "' not found.") ∧
    (∀ attr filters,
      list_unique_values db cname attr filters =
        .error ("Collection '" ++ cname ++ "' does not exist.")) := by
  have hfo := findOne_name_none (db.get "project") p hp
  have hio := findOne_external_none (db.get "issue") iid hi
  refine ⟨?_, ?_, ?_, ?_, ?_, ?_⟩
  · intro st pr it aid rid pg sz
    simp [fetch_project_issues, hfo]
  · intro st pr it aid rid
    simp [count_issues, hfo]
  · intro st pr it rid
    simp [get_project_assignees, hfo]
  · intro comp kw
    simp [analyze_developer_expertise, get_project_assignees, hfo]
  · simp [get_issue_details, hio]
  · intro attr filters
    have hnm : cname ∉ db.collNames := by simpa using hc
    simp [list_unique_values, hnm]

/-- Witness for C4 on a concrete store: the name `nope`, identifier
`X-1` and collection `bogus` are absent from `exdb1`. -/
theorem c4_not_found_errors_witness :
    (∀ st pr it aid rid pg sz,
      fetch_project_issues exdb1 "nope" st pr it aid rid pg sz =
        .error ("Project '" ++ "nope" ++ "' not found.")) ∧
    (∀ st pr it aid rid,
      count_issues exdb1 "nope" st pr it aid rid =
        .error ("Project '" ++ "nope" ++ "' not found.")) ∧
    (∀ st pr it rid,
      get_project_assignees exdb1 "nope" st pr it rid =
        .error ("Project '" ++ "nope" ++ "' not found.")) ∧
    (∀ comp kw,
      analyze_developer_expertise exdb1 "nope" comp kw =
        .error ("Project '" ++ "nope" ++ "' not found.")) ∧
    get_issue_details exdb1 "X-1" = .error ("Issue matching '" ++ "X-1" ++ "' not found.") ∧
    (∀ attr filters,
      list_unique_values exdb1 "bogus" attr filters =
        .error ("Collection '" ++ "bogus" ++ "' does not exist.")) :=
  c4_not_found_errors exdb1 "nope" "X-1" "bogus" (by decide) (by decide) (by decide)

/-! ## C10 — empty-string filters behave as omitted filters -/

/-- C10: passing the empty string for any optional filter of
`fetch_project_issues`, `count_issues` or `get_project_assignees` yields
exactly the same result as omitting the filter, because a filter is added
to the query only when its value is truthy. -/
theorem c10_empty_string_filters :
    (∀ db p pr it aid rid pg sz,
      fetch_project_issues db p (some "") pr it aid rid pg sz =
        fetch_project_issues db p none pr it aid rid pg sz) ∧
    (∀ db p st it aid rid pg sz,
      fetch_project_issues db p st (some "") it aid rid pg sz =
        fetch_project_issues db p st none it aid rid pg sz) ∧
    (∀ db p st pr aid rid pg sz,
      fetch_project_issues db p st pr (some "") aid rid pg sz =
        fetch_project_issues db p st pr none aid rid pg sz) ∧
    (∀ db p st pr it rid pg sz,
      fetch_project_issues db p st pr it (some (.str "")) rid pg sz =
        fetch_project_issues db p st pr it none rid pg sz) ∧
    (∀ db p st pr it aid pg sz,
      fetch_project_issues db p st pr it aid (some (.str "")) pg sz =
        fetch_project_issues db p st pr it aid none pg sz) ∧
    (∀ db p pr it aid rid,
      count_issues db p (some "") pr it aid rid = count_issues db p none pr it aid rid) ∧
    (∀ db p st it aid rid,
      count_issues db p st (some "") it aid rid = count_issues db p st none it aid rid) ∧
    (∀ db p st pr aid rid,
      count_issues db p st pr (some "") aid rid = count_issues db p st pr none aid rid) ∧
    (∀ db p st pr it rid,
      count_issues db p st pr it (some (.str "")) rid = count_issues db p st pr it none rid) ∧
    (∀ db p st pr it aid,
      count_issues db p st pr it aid (some (.str "")) = count_issues db p st pr it aid none) ∧
    (∀ db p pr it rid,
      get_project_assignees db p (some "") pr it rid =
        get_project_assignees db p none pr it rid) ∧
    (∀ db p st it rid,
      get_project_assignees db p st (some "") it rid =
        get_project_assignees db p st none it rid) ∧
    (∀ db p st pr rid,
      get_project_assignees db p st pr (some "") rid =
        get_project_assignees db p st pr none rid) ∧
    (∀ db p st pr it,
      get_project_assignees db p st pr it (some (.str "")) =
        get_project_assignees db p st pr it none) :=
  ⟨fun _ _ _ _ _ _ _ _ => rfl, fun _ _ _ _ _ _ _ _ => rfl,
   fun _ _ _ _ _ _ _ _ => rfl, fun _ _ _ _ _ _ _ _ => rfl,
   fun _ _ _ _ _ _ _ _ => rfl,
   fun _ _ _ _ _ _ => rfl, fun _ _ _ _ _ _ => rfl, fun _ _ _ _ _ _ => rfl,
   fun _ _ _ _ _ _ => rfl, fun _ _ _ _ _ _ => rfl,
   fun _ _ _ _ _ => rfl, fun _ _ _ _ _ => rfl, fun _ _ _ _ _ => rfl,
   fun _ _ _ _ _ => rfl⟩

/-! ## C3 — count agrees with a fetch's total count -/

/-- C3: for an existing project and any filter combination, the count
returned by `count_issues` equals the `total_count` of
`fetch_project_issues` under the same filters, for any page and page
size: both operations resolve the project identically and build the
identical filter. -/
theorem c3_count_eq_fetch_total (db : DB) (p : String)
    (st pr it : Option String) (aid rid : Option BVal) (pg sz : Nat)
    (r : FetchResult) (c : CountResult)
    (hf : fetch_project_issues db p st pr it aid rid pg sz = .ok r)
    (hc : count_issues db p st pr it aid rid = .ok c) :
    r.total_count = c.count := by
  unfold fetch_project_issues at hf
  unfold count_issues at hc
  cases hfo : findOne (db.get "project") [.single ⟨"name", .lit (.str p)⟩] with
  | none => simp only [hfo] at hf; exact Except.noConfusion hf
  | some project =>
    simp only [hfo] at hf hc
    cases hpid : pyGetF project "_id" with
    | error e => simp only [hpid] at hf; exact Except.noConfusion hf
    | ok pid =>
      simp only [hpid] at hf hc
      cases hm : (findDocs (db.get "issue_system")
          [.single ⟨"project_id", .lit pid⟩]).mapM (fun s => pyGetF s "_id") with
      | error e => simp only [hm] at hf; exact Except.noConfusion hf
      | ok ids =>
        simp only [hm, Except.ok.injEq] at hf hc
        rw [← hf, ← hc]

/-- Witness for C3 on a concrete store: one issue, no filters. -/
theorem c3_count_eq_fetch_total_witness :
    fetch_project_issues exdb2 "proj" none none none none none 1 50 =
      .ok ⟨[.obj [("issue_system_id", .str "bbbbbbbbbbbbbbbbbbbbbbbb"),
                  ("assignee_id", .str "AAAA"), ("title", .str "abc"),
                  ("status", .str "Open")]], 1, 50, 1⟩ ∧
    count_issues exdb2 "proj" none none none none none = .ok ⟨1⟩ ∧
    (FetchResult.mk [.obj [("issue_system_id", .str "bbbbbbbbbbbbbbbbbbbbbbbb"),
                  ("assignee_id", .str "AAAA"), ("title", .str "abc"),
                  ("status", .str "Open")]] 1 50 1).total_count =
      (CountResult.mk 1).count :=
  ⟨by rfl, by rfl, c3_count_eq_fetch_total exdb2 "proj" none none none none none 1 50
    _ _ (by rfl) (by rfl)⟩

/-! ## C5 — identifier normalization (corrected) -/

/-- Counterexample to C5 as stated: `get_issue_comments` does not
normalize its identifier argument.  On a store whose comment holds
`issue_id` as an ObjectId, querying with the equivalent 24-hex-digit
string finds nothing, while querying with the normalized form finds the
comment — so the claim's "a record matches however the field happens to
be stored" fails for `get_issue_comments`. -/
theorem c5_comments_not_normalized_counterexample :
    normalizeId (.str hexC) = .oid hexC ∧
    get_issue_comments exdb5 (.str hexC) = .ok ⟨[]⟩ ∧
    get_issue_comments exdb5 (.oid hexC) =
      .ok ⟨[.obj [("_id", .str "aaaaaaaaaaaaaaaaaaaaaaaa"),
                  ("issue_id", .str hexC), ("comment", .str "hi")]]⟩ ∧
    get_issue_comments exdb5 (.str hexC) ≠
      get_issue_comments exdb5 (normalizeId (.str hexC)) := by
  refine ⟨rfl, rfl, rfl, ?_⟩
  intro h
  have h2 : (Except.ok ⟨[]⟩ : Except String CommentsResult) =
      .ok ⟨[.obj [("_id", .str "aaaaaaaaaaaaaaaaaaaaaaaa"),
                  ("issue_id", .str hexC), ("comment", .str "hi")]]⟩ := by
    calc (Except.ok ⟨[]⟩ : Except String CommentsResult)
        = get_issue_comments exdb5 (.str hexC) := by rfl
      _ = get_issue_comments exdb5 (normalizeId (.str hexC)) := h
      _ = _ := by rfl
  simp [CommentsResult.mk.injEq] at h2

/-- C5 amended: the identifier filters of `fetch_project_issues`,
`count_issues` and `get_project_assignees` are normalized before
querying, so passing an identifier in either form (native or plain
string) gives the same result as passing its normalized form;
`get_issue_comments` is excluded — it matches the raw argument. -/
theorem c5_amended_normalized_filters :
    (∀ db p st pr it rid pg sz v,
      fetch_project_issues db p st pr it (some v) rid pg sz =
        fetch_project_issues db p st pr it (some (normalizeId v)) rid pg sz) ∧
    (∀ db p st pr it aid pg sz v,
      fetch_project_issues db p st pr it aid (some v) pg sz =
        fetch_project_issues db p st pr it aid (some (normalizeId v)) pg sz) ∧
    (∀ db p st pr it rid v,
      count_issues db p st pr it (some v) rid =
        count_issues db p st pr it (some (normalizeId v)) rid) ∧
    (∀ db p st pr it aid v,
      count_issues db p st pr it aid (some v) =
        count_issues db p st pr it aid (some (normalizeId v))) ∧
    (∀ db p st pr it v,
      get_project_assignees db p st pr it (some v) =
        get_project_assignees db p st pr it (some (normalizeId v))) := by
  refine ⟨?_, ?_, ?_, ?_, ?_⟩
  · intro db p st pr it rid pg sz v
    unfold fetch_project_issues
    simp only [truthy_normalizeId, normalizeId_idem]
  · intro db p st pr it aid pg sz v
    unfold fetch_project_issues
    simp only [truthy_normalizeId, normalizeId_idem]
  · intro db p st pr it rid v
    unfold count_issues
    simp only [truthy_normalizeId, normalizeId_idem]
  · intro db p st pr it aid v
    unfold count_issues
    simp only [truthy_normalizeId, normalizeId_idem]
  · intro db p st pr it v
    unfold get_project_assignees
    simp only [truthy_normalizeId, normalizeId_idem]

/-! ## C6 — assignee listing (corrected) -/

/-- Counterexample to C6 as stated: on a store with one matching issue
whose `assignee_id` is an explicit null (and one with the field absent),
`get_project_assignees` returns the null among the assignees and counts
it — not the claimed set of non-null values (which would be empty with
count 0). -/
theorem c6_null_assignee_counterexample :
    get_project_assignees exdb6 "proj" none none none none = .ok ⟨[BVal.null], 1⟩ ∧
    get_project_assignees exdb6 "proj" none none none none ≠ .ok ⟨[], 0⟩ := by
  refine ⟨rfl, ?_⟩
  intro h
  have h2 : (Except.ok ⟨[BVal.null], 1⟩ : Except String AssigneesResult) = .ok ⟨[], 0⟩ :=
    (rfl : get_project_assignees exdb6 "proj" none none none none =
      .ok ⟨[BVal.null], 1⟩).symm.trans h
  simp [AssigneesResult.mk.injEq] at h2

/-- C6 amended: `get_project_assignees` returns the distinct values of
the `assignee_id` field over matching issues (specification-level filter)
in discovery order, serialized, with their number; issues lacking the
field are silently excluded, but an explicitly stored null is kept. -/
theorem c6_assignees_characterization (db : DB) (p : String)
    (st pr it : Option String) (rid : Option BVal)
    (ares : AssigneesResult) (ids : List BVal)
    (h : get_project_assignees db p st pr it rid = .ok ares)
    (hids : _get_issue_system_ids db p = .ok ids)
    (hnn : ids.all (fun v => !beqV v .null) = true) :
    ares.assignees = serializeList (dedupB
      (((db.get "issue").filter (specIssuePred ids st pr it none rid)).filterMap
        (fun i => getField i "assignee_id"))) ∧
    ares.count = (dedupB
      (((db.get "issue").filter (specIssuePred ids st pr it none rid)).filterMap
        (fun i => getField i "assignee_id"))).length := by
  unfold get_project_assignees at h
  unfold _get_issue_system_ids at hids
  cases hfo : findOne (db.get "project") [.single ⟨"name", .lit (.str p)⟩] with
  | none => simp only [hfo] at h; exact Except.noConfusion h
  | some project =>
    simp only [hfo] at h hids
    cases hpid : pyGetF project "_id" with
    | error e => simp only [hpid] at h; exact Except.noConfusion h
    | ok pid =>
      simp only [hpid] at h hids
      cases hm : (findDocs (db.get "issue_system")
          [.single ⟨"project_id", .lit pid⟩]).mapM (fun s => pyGetF s "_id") with
      | error e => simp only [hm] at h; exact Except.noConfusion h
      | ok ids' =>
        simp only [hm, Except.ok.injEq] at h hids
        rw [hids] at h
        rw [findDocs_assigneesFilter (db.get "issue") ids st pr it rid hnn] at h
        rw [← h]
        exact ⟨rfl, rfl⟩

/-- Witness for the amended C6 on the null-assignee store. -/
theorem c6_assignees_characterization_witness :
    ([BVal.null] : List BVal) = serializeList (dedupB
      (((exdb6.get "issue").filter (specIssuePred [oidS] none none none none none)).filterMap
        (fun i => getField i "assignee_id"))) ∧
    (1 : Nat) = (dedupB
      (((exdb6.get "issue").filter (specIssuePred [oidS] none none none none none)).filterMap
        (fun i => getField i "assignee_id"))).length :=
  c6_assignees_characterization exdb6 "proj" none none none none
    ⟨[BVal.null], 1⟩ [oidS] (by rfl) (by rfl) (by decide)

/-! ## C7 — pagination (corrected) -/

/-- Counterexample to C7 as stated: with `page_size = 0` the claim's
window (offsets 0 through -1) is empty, but pymongo's `limit(0)` means
"no limit", so the fetch returns all filtered issues. -/
theorem c7_page_size_zero_counterexample :
    fetch_project_issues exdb2 "proj" none none none none none 1 0 =
      .ok ⟨[.obj [("issue_system_id", .str "bbbbbbbbbbbbbbbbbbbbbbbb"),
                  ("assignee_id", .str "AAAA"), ("title", .str "abc"),
                  ("status", .str "Open")]], 1, 0, 1⟩ ∧
    (∀ l : List BVal, (l.drop ((1 - 1) * 0)).take 0 = []) ∧
    ([.obj [("issue_system_id", .str "bbbbbbbbbbbbbbbbbbbbbbbb"),
            ("assignee_id", .str "AAAA"), ("title", .str "abc"),
            ("status", .str "Open")]] : List BVal) ≠ [] := by
  refine ⟨rfl, fun l => by simp, by simp⟩

/-- C7 amended: for `page ≥ 1` and `page_size ≥ 1`, a successful fetch
returns exactly the specification-filtered issues at offsets
`(page-1)*page_size` through `page*page_size - 1` of the store-ordered
filtered list (serialized), a page past the end yields an empty issue
list, and `total_count` is always the full filtered count.  (`page_size
= 0` is excluded: the store treats a limit of 0 as "no limit".) -/
theorem c7_pagination (db : DB) (p : String) (st pr it : Option String)
    (aid rid : Option BVal) (page size : Nat) (r : FetchResult) (ids : List BVal)
    (hsize : 1 ≤ size)
    (hf : fetch_project_issues db p st pr it aid rid page size = .ok r)
    (hids : _get_issue_system_ids db p = .ok ids)
    (hnn : ids.all (fun v => !beqV v .null) = true) :
    r.total_count = ((db.get "issue").filter (specIssuePred ids st pr it aid rid)).length ∧
    (∀ k : Nat, r.issues[k]? =
      if k < size then
        (((db.get "issue").filter (specIssuePred ids st pr it aid rid))[(page - 1) * size + k]?).map
          (fun d => serialize_mongo_doc (.obj d))
      else none) ∧
    (((db.get "issue").filter (specIssuePred ids st pr it aid rid)).length ≤ (page - 1) * size →
      r.issues = []) := by
  unfold fetch_project_issues at hf
  unfold _get_issue_system_ids at hids
  cases hfo : findOne (db.get "project") [.single ⟨"name", .lit (.str p)⟩] with
  | none => simp only [hfo] at hf; exact Except.noConfusion hf
  | some project =>
    simp only [hfo] at hf hids
    cases hpid : pyGetF project "_id" with
    | error e => simp only [hpid] at hf; exact Except.noConfusion hf
    | ok pid =>
      simp only [hpid] at hf hids
      cases hm : (findDocs (db.get "issue_system")
          [.single ⟨"project_id", .lit pid⟩]).mapM (fun s => pyGetF s "_id") with
      | error e => simp only [hm] at hf; exact Except.noConfusion hf
      | ok ids' =>
        simp only [hm, Except.ok.injEq] at hf hids
        rw [hids] at hf
        simp only [countDocs] at hf
        rw [findDocs_issueFilter (db.get "issue") ids st pr it aid rid hnn] at hf
        rw [← hf]
        have hsz : (size == 0) = false := by
          cases size with
          | zero => exact absurd hsize (by simp)
          | succ n => rfl
        refine ⟨rfl, ?_, ?_⟩
        · intro k
          show ((mongoLimit (mongoSkip
              ((db.get "issue").filter (specIssuePred ids st pr it aid rid))
              ((page - 1) * size)) size).map
            (fun d => serialize_mongo_doc (.obj d)))[k]? = _
          rw [mongoLimit, hsz, mongoSkip]
          simp only [Bool.false_eq_true, if_false, List.getElem?_map,
            List.getElem?_take, List.getElem?_drop]
          split <;> rfl
        · intro hle
          show ((mongoLimit (mongoSkip
              ((db.get "issue").filter (specIssuePred ids st pr it aid rid))
              ((page - 1) * size)) size).map
            (fun d => serialize_mongo_doc (.obj d))) = []
          rw [mongoLimit, hsz, mongoSkip]
          simp only [Bool.false_eq_true, if_false]
          rw [List.drop_eq_nil_of_le hle]
          simp

/-- Witness for the amended C7: page 2 of size 3 over the seven Open
issues of the example store. -/
theorem c7_pagination_witness :
    (FetchResult.mk
      [.obj [("issue_system_id", .str "bbbbbbbbbbbbbbbbbbbbbbbb"),
             ("assignee_id", .str "BBBB"), ("title", .str "other"),
             ("status", .str "Open"), ("desc", .str "kw stuff")],
       .obj [("issue_system_id", .str "bbbbbbbbbbbbbbbbbbbbbbbb"),
             ("assignee_id", .str "BBBB"), ("title", .str "second"),
             ("status", .str "Open"), ("desc", .str "kw again")],
       .obj [("issue_system_id", .str "bbbbbbbbbbbbbbbbbbbbbbbb"),
             ("assignee_id", .str "CCCC"), ("title", .str "comp thing"),
             ("status", .str "Open")]] 2 3 7).total_count =
      ((exdb1.get "issue").filter (specIssuePred [oidS] (some "Open") none none none none)).length ∧
    (∀ k : Nat, (FetchResult.mk
      [.obj [("issue_system_id", .str "bbbbbbbbbbbbbbbbbbbbbbbb"),
             ("assignee_id", .str "BBBB"), ("title", .str "other"),
             ("status", .str "Open"), ("desc", .str "kw stuff")],
       .obj [("issue_system_id", .str "bbbbbbbbbbbbbbbbbbbbbbbb"),
             ("assignee_id", .str "BBBB"), ("title", .str "second"),
             ("status", .str "Open"), ("desc", .str "kw again")],
       .obj [("issue_system_id", .str "bbbbbbbbbbbbbbbbbbbbbbbb"),
             ("assignee_id", .str "CCCC"), ("title", .str "comp thing"),
             ("status", .str "Open")]] 2 3 7).issues[k]? =
      if k < 3 then
        (((exdb1.get "issue").filter (specIssuePred [oidS] (some "Open") none none none none))[(2 - 1) * 3 + k]?).map
          (fun d => serialize_mongo_doc (.obj d))
      else none) ∧
    (((exdb1.get "issue").filter (specIssuePred [oidS] (some "Open") none none none none)).length ≤ (2 - 1) * 3 →
      (FetchResult.mk
      [.obj [("issue_system_id", .str "bbbbbbbbbbbbbbbbbbbbbbbb"),
             ("assignee_id", .str "BBBB"), ("title", .str "other"),
             ("status", .str "Open"), ("desc", .str "kw stuff")],
       .obj [("issue_system_id", .str "bbbbbbbbbbbbbbbbbbbbbbbb"),
             ("assignee_id", .str "BBBB"), ("title", .str "second"),
             ("status", .str "Open"), ("desc", .str "kw again")],
       .obj [("issue_system_id", .str "bbbbbbbbbbbbbbbbbbbbbbbb"),
             ("assignee_id", .str "CCCC"), ("title", .str "comp thing"),
             ("status", .str "Open")]] 2 3 7).issues = []) :=
  c7_pagination exdb1 "proj" (some "Open") none none none none 2 3 _ [oidS]
    (by decide) (by rfl) (by rfl) (by decide)

/-! ## C9 — dispatch of unrecognized function names -/

theorem mapM_option_char {α β : Type} (f : α → Option β) :
    ∀ (l : List α) (outs : List β), l.mapM' f = some outs →
      outs.length = l.length ∧
        ∀ k, k < l.length → ∃ a, l[k]? = some a ∧ outs[k]? = f a := by
  intro l
  induction l with
  | nil =>
      intro outs h
      simp only [List.mapM'_nil, pure, Option.some.injEq] at h
      subst h
      exact ⟨rfl, fun k hk => absurd hk (by simp)⟩
  | cons a t ih =>
      intro outs h
      simp only [List.mapM'_cons] at h
      cases hfa : f a with
      | none => simp [hfa] at h
      | some b =>
        cases hmt : t.mapM' f with
        | none => simp [hfa, hmt] at h
        | some bs =>
          simp only [hfa, hmt, Option.bind_eq_bind, Option.some_bind, pure,
            Option.some.injEq] at h
          subst h
          obtain ⟨ihl, ihk⟩ := ih bs hmt
          refine ⟨by simp [ihl], ?_⟩
          intro k hk
          cases k with
          | zero => exact ⟨a, by simp, by simp [hfa]⟩
          | succ m =>
              obtain ⟨a', ha', hb'⟩ := ihk m (by simpa using hk)
              exact ⟨a', by simpa using ha', by simpa using hb'⟩

theorem mapM_option_isSome {α β : Type} (f : α → Option β) :
    ∀ l : List α, (∀ a ∈ l, (f a).isSome) → (l.mapM' f).isSome := by
  intro l
  induction l with
  | nil => intro _; simp [List.mapM'_nil]
  | cons a t ih =>
      intro h
      simp only [List.mapM'_cons]
      cases hfa : f a with
      | none =>
          have := h a (by simp)
          rw [hfa] at this
          simp at this
      | some b =>
          have ht := ih (fun x hx => h x (by simp [hx]))
          cases hmt : t.mapM' f with
          | none => rw [hmt] at ht; simp at ht
          | some bs => simp [hfa, hmt]

/-- C9: a call whose function name is not one of the seven catalog
operations yields exactly the structured result
`{"error": "Unsupported function call."}` and never raises; the handler
collects one output per call of the batch, positionally, each determined
by its own dispatch; and a batch in which every recognized call
dispatches without raising is fully processed regardless of unrecognized
calls — an unrecognized name never makes the handler raise. -/
theorem c9_unsupported_dispatch :
    (∀ db fname args, fname ∉ supportedFunctions →
      dispatch db fname args = some unsupportedResult) ∧
    (∀ db calls outs, handle_requires_action db calls = some outs →
      outs.length = calls.length ∧
        ∀ k, k < calls.length → ∃ c : ToolCall, calls[k]? = some c ∧
          outs[k]? = (dispatch db c.fname c.args).map (fun v => ⟨c.id, v⟩)) ∧
    (∀ db calls,
      (∀ c ∈ calls, c.fname ∈ supportedFunctions → (dispatch db c.fname c.args).isSome) →
      (handle_requires_action db calls).isSome) := by
  have hunsup : ∀ (db : DB) fname args, fname ∉ supportedFunctions →
      dispatch db fname args = some unsupportedResult := by
    intro db fname args hns
    simp only [supportedFunctions, List.mem_cons, List.not_mem_nil, or_false,
      not_or] at hns
    obtain ⟨h1, h2, h3, h4, h5, h6, h7⟩ := hns
    simp [dispatch, h1, h2, h3, h4, h5, h6, h7]
  refine ⟨hunsup, ?_, ?_⟩
  · intro db calls outs h
    unfold handle_requires_action at h
    rw [← List.mapM'_eq_mapM] at h
    exact mapM_option_char _ calls outs h
  · intro db calls h
    unfold handle_requires_action
    rw [← List.mapM'_eq_mapM]
    apply mapM_option_isSome
    intro c hc
    by_cases hm : c.fname ∈ supportedFunctions
    · have := h c hc hm
      cases hd : dispatch db c.fname c.args with
      | none => rw [hd] at this; simp at this
      | some v => simp [hd]
    · rw [hunsup db c.fname c.args hm]
      rfl

/-- Witness for C9: a batch with one bogus call and one `count_issues`
call on a concrete store — the bogus call yields the unsupported-call
error, and the whole batch is processed. -/
theorem c9_unsupported_dispatch_witness :
    ("bogus_fn" ∉ supportedFunctions ∧
      dispatch exdb2 "bogus_fn" [] = some unsupportedResult) ∧
    (handle_requires_action exdb2
      [⟨"1", "bogus_fn", []⟩,
       ⟨"2", "count_issues", [("project_name", .str "proj")]⟩]).isSome ∧
    handle_requires_action exdb2
      [⟨"1", "bogus_fn", []⟩,
       ⟨"2", "count_issues", [("project_name", .str "proj")]⟩] =
      some [⟨"1", unsupportedResult⟩, ⟨"2", .obj [("count", .int 1)]⟩] :=
  ⟨⟨by decide, c9_unsupported_dispatch.1 exdb2 "bogus_fn" [] (by decide)⟩,
   c9_unsupported_dispatch.2.2 exdb2
     [⟨"1", "bogus_fn", []⟩, ⟨"2", "count_issues", [("project_name", .str "proj")]⟩]
     (by decide),
   by rfl⟩

/-! ## C1 — the expertise-scoring pipeline -/

/-- The guarded optional count of the loop, with the issue-system
resolution already reduced, equals a pure value. -/
theorem optCount_reduce (db : DB) (o : Option String) (a : BVal)
    (ids : List BVal) (q : List BVal → BVal → String → Query) :
    (match o with
     | some c =>
       if c.isEmpty then (.ok 0 : Except String Nat)
       else .ok (countDocs (db.get "issue") (q ids a c))
     | none => .ok 0) =
    .ok (match o with
         | some c => if c.isEmpty then 0 else countDocs (db.get "issue") (q ids a c)
         | none => 0) := by
  cases o with
  | none => rfl
  | some c => cases hc : c.isEmpty <;> simp [hc]

/-- The per-assignee loop equals its pure reformulation once the
issue-system resolution is fixed. -/
theorem analyzeLoop_char (db : DB) (p : String) (comp kw : Option String)
    (ids : List BVal) (hids : _get_issue_system_ids db p = .ok ids) :
    ∀ l, analyzeLoop db p comp kw l = .ok (loopRecs db ids comp kw l) := by
  intro l
  induction l with
  | nil => rfl
  | cons a rest ih =>
      cases ha : truthy a with
      | false => simp only [analyzeLoop, loopRecs, ha, Bool.false_eq_true, if_false]; exact ih
      | true =>
          simp only [analyzeLoop, ha, if_true, hids]
          simp only [optCount_reduce db comp a ids (fun i x s => componentQuery i x s),
            optCount_reduce db kw a ids (fun i x s => keywordQuery i x s)]
          simp only [ih, loopRecs, ha, if_true, candScore, mkRec,
            apply_ite (Except.ok (ε := String))]

/-- `insertDesc` adds exactly one element. -/
theorem length_insertDesc (r : Recommendation) :
    ∀ l, (insertDesc r l).length = l.length + 1 := by
  intro l
  induction l with
  | nil => rfl
  | cons x t ih =>
      unfold insertDesc
      by_cases h : x.expertise_score ≤ r.expertise_score <;> simp [h, ih]

/-- Sorting preserves length. -/
theorem length_sortScoreDesc : ∀ l, (sortScoreDesc l).length = l.length := by
  intro l
  induction l with
  | nil => rfl
  | cons x t ih =>
      show (insertDesc x (sortScoreDesc t)).length = t.length + 1
      rw [length_insertDesc, ih]

/-- Membership through `insertDesc`. -/
theorem mem_insertDesc (x r : Recommendation) :
    ∀ l, x ∈ insertDesc r l ↔ x = r ∨ x ∈ l := by
  intro l
  induction l with
  | nil => simp [insertDesc]
  | cons y t ih =>
      unfold insertDesc
      by_cases h : y.expertise_score ≤ r.expertise_score
      · simp only [h, if_pos, List.mem_cons]
      · simp only [h, if_neg, ite_false, List.mem_cons, ih]
        tauto

/-- Membership through sorting. -/
theorem mem_sortScoreDesc (x : Recommendation) :
    ∀ l, x ∈ sortScoreDesc l ↔ x ∈ l := by
  intro l
  induction l with
  | nil => simp [sortScoreDesc]
  | cons y t ih =>
      show x ∈ insertDesc y (sortScoreDesc t) ↔ _
      rw [mem_insertDesc, ih]
      simp only [List.mem_cons]

/-- Head bound: every head of the list scores at most `n`. -/
def boundB (n : Nat) : List Recommendation → Bool
  | [] => true
  | x :: _ => x.expertise_score ≤ n

theorem scoresDescB_cons (x : Recommendation) (l : List Recommendation) :
    scoresDescB (x :: l) = (boundB x.expertise_score l && scoresDescB l) := by
  cases l <;> rfl

theorem boundB_insertDesc (n : Nat) (r : Recommendation)
    (hr : r.expertise_score ≤ n) :
    ∀ l, boundB n l = true → boundB n (insertDesc r l) = true := by
  intro l hl
  cases l with
  | nil => simpa [insertDesc, boundB]
  | cons y t =>
      unfold insertDesc
      by_cases h : y.expertise_score ≤ r.expertise_score
      · simpa [h, boundB]
      · simpa [h, boundB] using hl

theorem scoresDescB_insertDesc (r : Recommendation) :
    ∀ l, scoresDescB l = true → scoresDescB (insertDesc r l) = true := by
  intro l
  induction l with
  | nil => intro _; rfl
  | cons x t ih =>
      intro h
      rw [scoresDescB_cons, Bool.and_eq_true] at h
      obtain ⟨hb, hd⟩ := h
      unfold insertDesc
      by_cases hc : x.expertise_score ≤ r.expertise_score
      · simp only [hc, if_pos]
        rw [scoresDescB_cons, boundB, scoresDescB_cons]
        simp [hc, hb, hd]
      · simp only [hc, if_neg, ite_false]
        rw [scoresDescB_cons]
        have hrx : r.expertise_score ≤ x.expertise_score :=
          Nat.le_of_lt (Nat.lt_of_not_le hc)
        rw [Bool.and_eq_true]
        exact ⟨boundB_insertDesc x.expertise_score r hrx t hb, ih hd⟩

theorem scoresDescB_sortScoreDesc : ∀ l, scoresDescB (sortScoreDesc l) = true := by
  intro l
  induction l with
  | nil => rfl
  | cons x t ih => exact scoresDescB_insertDesc x (sortScoreDesc t) ih

theorem boundB_take (n : Nat) :
    ∀ (l : List Recommendation) (k : Nat), boundB n l = true → boundB n (l.take k) = true := by
  intro l k hl
  cases l with
  | nil => simp [boundB]
  | cons x t => cases k with
    | zero => rfl
    | succ m => simpa [boundB] using hl

theorem scoresDescB_take :
    ∀ (l : List Recommendation) (k : Nat), scoresDescB l = true → scoresDescB (l.take k) = true := by
  intro l
  induction l with
  | nil => intro k _; simp [scoresDescB]
  | cons x t ih =>
      intro k h
      cases k with
      | zero => rfl
      | succ m =>
          rw [scoresDescB_cons, Bool.and_eq_true] at h
          obtain ⟨hb, hd⟩ := h
          rw [List.take_succ_cons, scoresDescB_cons, Bool.and_eq_true]
          exact ⟨boundB_take x.expertise_score t m hb, ih m hd⟩

/-- Everything the loop keeps is a truthy candidate's record with a
positive score. -/
theorem mem_loopRecs (db : DB) (ids : List BVal) (comp kw : Option String) :
    ∀ l x, x ∈ loopRecs db ids comp kw l →
      ∃ a, a ∈ l ∧ truthy a = true ∧ x = mkRec db ids comp kw a ∧
        candScore db ids comp kw a > 0 := by
  intro l
  induction l with
  | nil => intro x hx; simp [loopRecs] at hx
  | cons a rest ih =>
      intro x hx
      unfold loopRecs at hx
      by_cases ha : truthy a
      · rw [if_pos ha] at hx
        by_cases hs : candScore db ids comp kw a > 0
        · rw [if_pos hs] at hx
          rcases List.mem_cons.mp hx with hx1 | hx2
          · exact ⟨a, by simp, ha, hx1, hs⟩
          · obtain ⟨b, hb1, hb2, hb3, hb4⟩ := ih x hx2
            exact ⟨b, by simp [hb1], hb2, hb3, hb4⟩
        · rw [if_neg hs] at hx
          obtain ⟨b, hb1, hb2, hb3, hb4⟩ := ih x hx
          exact ⟨b, by simp [hb1], hb2, hb3, hb4⟩
      · rw [if_neg ha] at hx
        obtain ⟨b, hb1, hb2, hb3, hb4⟩ := ih x hx
        exact ⟨b, by simp [hb1], hb2, hb3, hb4⟩

/-- The loop keeps exactly the truthy candidates with positive score. -/
theorem length_loopRecs (db : DB) (ids : List BVal) (comp kw : Option String) :
    ∀ l, (loopRecs db ids comp kw l).length =
      (l.filter (fun a => truthy a && decide (candScore db ids comp kw a > 0))).length := by
  intro l
  induction l with
  | nil => rfl
  | cons a rest ih =>
      unfold loopRecs
      by_cases ha : truthy a
      · by_cases hs : candScore db ids comp kw a > 0
        · simp [ha, hs, ih]
        · simp [ha, hs, ih]
      · simp [ha, ih]

/-- C1: on a successful analysis of an existing project, the result is
the stable score-descending sort of the kept candidates truncated to
three entries; scores are `2*component + keyword + resolved`;
zero-scored candidates are dropped; and `total_candidates` counts every
truthy candidate with positive score, not merely the returned ones. -/
theorem c1_expertise_pipeline (db : DB) (p : String) (comp kw : Option String)
    (r : ExpertiseResult) (ares : AssigneesResult) (ids : List BVal)
    (hr : analyze_developer_expertise db p comp kw = .ok r)
    (ha : get_project_assignees db p none none none none = .ok ares)
    (hids : _get_issue_system_ids db p = .ok ids) :
    r.recommendations = (sortScoreDesc (loopRecs db ids comp kw ares.assignees)).take 3 ∧
    scoresDescB r.recommendations = true ∧
    r.recommendations.length ≤ 3 ∧
    r.total_candidates = (ares.assignees.filter
      (fun a => truthy a && decide (candScore db ids comp kw a > 0))).length ∧
    r.recommendations.length = min 3 r.total_candidates ∧
    (∀ rec ∈ r.recommendations,
      rec.expertise_score =
        rec.component_experience * 2 + rec.keyword_experience + rec.resolved_issues ∧
      rec.expertise_score ≠ 0) ∧
    (∀ rec ∈ r.recommendations, ∃ a, a ∈ ares.assignees ∧ truthy a = true ∧
      rec = mkRec db ids comp kw a ∧ candScore db ids comp kw a > 0) := by
  unfold analyze_developer_expertise at hr
  simp only [ha, analyzeLoop_char db p comp kw ids hids ares.assignees,
    Except.ok.injEq] at hr
  subst hr
  have hmem : ∀ rec, rec ∈ (sortScoreDesc (loopRecs db ids comp kw ares.assignees)).take 3 →
      ∃ a, a ∈ ares.assignees ∧ truthy a = true ∧
        rec = mkRec db ids comp kw a ∧ candScore db ids comp kw a > 0 := by
    intro rec hrec
    have h1 : rec ∈ sortScoreDesc (loopRecs db ids comp kw ares.assignees) :=
      List.mem_of_mem_take hrec
    have h2 : rec ∈ loopRecs db ids comp kw ares.assignees :=
      (mem_sortScoreDesc rec _).mp h1
    exact mem_loopRecs db ids comp kw ares.assignees rec h2
  refine ⟨rfl, ?_, ?_, ?_, ?_, ?_, hmem⟩
  · exact scoresDescB_take _ 3 (scoresDescB_sortScoreDesc _)
  · show (List.take 3 _).length ≤ 3
    simp [List.length_take]
  · show (sortScoreDesc (loopRecs db ids comp kw ares.assignees)).length = _
    rw [length_sortScoreDesc, length_loopRecs]
  · show (List.take 3 _).length = min 3 (sortScoreDesc (loopRecs db ids comp kw ares.assignees)).length
    simp [List.length_take]
  · intro rec hrec
    obtain ⟨a, _, _, hrec_eq, hpos⟩ := hmem rec hrec
    subst hrec_eq
    constructor
    · rfl
    · show candScore db ids comp kw a ≠ 0
      exact Nat.pos_iff_ne_zero.mp hpos

/-- Witness for C1: the three-candidate example store, where the
candidates score 7, 3 and 4 and come back ordered 7, 4, 3 with
`total_candidates = 3`. -/
theorem c1_expertise_pipeline_witness :
    analyze_developer_expertise exdb1 "proj" (some "comp") (some "kw") =
      .ok ⟨[⟨"AAAA", "Dev-AAAA", 7, 3, 0, 1⟩,
            ⟨"CCCC", "Dev-CCCC", 4, 1, 1, 1⟩,
            ⟨"BBBB", "Dev-BBBB", 3, 0, 2, 1⟩], 3⟩ ∧
    get_project_assignees exdb1 "proj" none none none none =
      .ok ⟨[.str "AAAA", .str "BBBB", .str "CCCC"], 3⟩ ∧
    ([⟨"AAAA", "Dev-AAAA", 7, 3, 0, 1⟩,
      ⟨"CCCC", "Dev-CCCC", 4, 1, 1, 1⟩,
      ⟨"BBBB", "Dev-BBBB", 3, 0, 2, 1⟩] : List Recommendation) =
      (sortScoreDesc (loopRecs exdb1 [oidS] (some "comp") (some "kw")
        [.str "AAAA", .str "BBBB", .str "CCCC"])).take 3 ∧
    scoresDescB [⟨"AAAA", "Dev-AAAA", 7, 3, 0, 1⟩,
      ⟨"CCCC", "Dev-CCCC", 4, 1, 1, 1⟩,
      ⟨"BBBB", "Dev-BBBB", 3, 0, 2, 1⟩] = true ∧
    (3 : Nat) = ([BVal.str "AAAA", .str "BBBB", .str "CCCC"].filter
      (fun a => truthy a &&
        decide (candScore exdb1 [oidS] (some "comp") (some "kw") a > 0))).length := by
  have h := c1_expertise_pipeline exdb1 "proj" (some "comp") (some "kw")
    ⟨[⟨"AAAA", "Dev-AAAA", 7, 3, 0, 1⟩,
      ⟨"CCCC", "Dev-CCCC", 4, 1, 1, 1⟩,
      ⟨"BBBB", "Dev-BBBB", 3, 0, 2, 1⟩], 3⟩
    ⟨[.str "AAAA", .str "BBBB", .str "CCCC"], 3⟩ [oidS]
    (by rfl) (by rfl) (by rfl)
  exact ⟨by rfl, by rfl, h.1, h.2.1, h.2.2.2.1⟩

/-! ## C2 — the per-candidate counts (corrected) -/

theorem truthy_ne_null (v : BVal) (h : truthy v = true) : beqV v .null = false := by
  cases v with
  | null => simp [truthy] at h
  | bool b => rfl
  | int n => rfl
  | str s => rfl
  | oid s => rfl
  | dt s => rfl
  | arr xs => rfl
  | obj fs => rfl

theorem evalFieldCond_lit (d : Doc) (f : String) (v : BVal)
    (hv : beqV v .null = false) :
    evalFieldCond d ⟨f, .lit v⟩ = fieldEqB d f v := by
  simp only [evalFieldCond, fieldEqB]
  cases getField d f with
  | none => simp [evalQVal, hv]
  | some fv => simp [evalQVal]

theorem evalFieldCond_inList (d : Doc) (f : String) (ids : List BVal)
    (hnn : ids.all (fun v => !beqV v .null) = true) :
    evalFieldCond d ⟨f, .inList ids⟩ = fieldInB d f ids := by
  simp only [evalFieldCond, fieldInB]
  cases getField d f with
  | some fv => simp [evalQVal]
  | none =>
      simp only [evalQVal]
      rw [List.any_eq_false]
      intro v hv
      simpa using List.all_eq_true.mp hnn v hv

theorem evalFieldCond_regexI (d : Doc) (f pat : String) :
    evalFieldCond d ⟨f, .regexI pat⟩ = fieldRegexIB d f pat := by
  simp only [evalFieldCond, fieldRegexIB]
  cases h : getField d f with
  | none => rfl
  | some v => cases v <;> rfl

/-- The component query counts exactly the specification-level
regex-reading component experience. -/
theorem countDocs_componentQuery (db : DB) (ids : List BVal) (a : BVal)
    (c : String) (hta : truthy a = true)
    (hnn : ids.all (fun v => !beqV v .null) = true) :
    countDocs (db.get "issue") (componentQuery ids a c) = specCompCountRe db ids a c := by
  unfold countDocs findDocs specCompCountRe componentQuery
  congr 1
  refine List.filter_congr ?_
  intro d _
  simp only [matchesQuery, List.all_cons, List.all_nil, Bool.and_true, evalClause,
    List.any_cons, List.any_nil, Bool.or_false,
    evalFieldCond_inList d "issue_system_id" ids hnn,
    evalFieldCond_lit d "assignee_id" a (truthy_ne_null a hta),
    evalFieldCond_regexI]
  rw [Bool.and_assoc]

/-- The keyword query counts exactly the specification-level
regex-reading keyword experience. -/
theorem countDocs_keywordQuery (db : DB) (ids : List BVal) (a : BVal)
    (k : String) (hta : truthy a = true)
    (hnn : ids.all (fun v => !beqV v .null) = true) :
    countDocs (db.get "issue") (keywordQuery ids a k) = specKwCountRe db ids a k := by
  unfold countDocs findDocs specKwCountRe keywordQuery
  congr 1
  refine List.filter_congr ?_
  intro d _
  simp only [matchesQuery, List.all_cons, List.all_nil, Bool.and_true, evalClause,
    List.any_cons, List.any_nil, Bool.or_false,
    evalFieldCond_inList d "issue_system_id" ids hnn,
    evalFieldCond_lit d "assignee_id" a (truthy_ne_null a hta),
    evalFieldCond_regexI]
  rw [Bool.and_assoc]

/-- The resolved query counts exactly the specification-level resolved
count (exact, case-sensitive match on the literal `"Resolved"`). -/
theorem countDocs_resolvedQuery (db : DB) (ids : List BVal) (a : BVal)
    (hta : truthy a = true)
    (hnn : ids.all (fun v => !beqV v .null) = true) :
    countDocs (db.get "issue") (resolvedQuery ids a) = specResolvedCount db ids a := by
  unfold countDocs findDocs specResolvedCount resolvedQuery
  congr 1
  refine List.filter_congr ?_
  intro d _
  simp only [matchesQuery, List.all_cons, List.all_nil, Bool.and_true, evalClause,
    evalFieldCond_inList d "issue_system_id" ids hnn,
    evalFieldCond_lit d "assignee_id" a (truthy_ne_null a hta),
    evalFieldCond_lit d "status" (.str "Resolved") rfl]
  rw [Bool.and_assoc]

/-- Counterexample to C2 as stated: the match is a regex search, not a
substring containment.  With component argument `a.c` and a stored title
`abc`, the code counts 1 (the dot matches any character), while the
claimed case-insensitive-substring count is 0. -/
theorem c2_substring_counterexample :
    analyze_developer_expertise exdb2 "proj" (some "a.c") none =
      .ok ⟨[⟨"AAAA", "Dev-AAAA", 2, 1, 0, 0⟩], 1⟩ ∧
    _get_issue_system_ids exdb2 "proj" = .ok [oidS] ∧
    specCompCountRe exdb2 [oidS] (.str "AAAA") "a.c" = 1 ∧
    specCompCountSub exdb2 [oidS] (.str "AAAA") "a.c" = 0 ∧
    (Recommendation.mk "AAAA" "Dev-AAAA" 2 1 0 0).component_experience ≠
      specCompCountSub exdb2 [oidS] (.str "AAAA") "a.c" := by
  exact ⟨rfl, rfl, rfl, rfl, by decide⟩

/-- C2 amended: each returned recommendation's counts are, for its
candidate: `component_experience` the number of the project's issues with
that assignee whose `component` or `title` matches the component argument
as a case-insensitive regex search (0 when the argument is absent or
empty); `keyword_experience` the analogous count over `title` and `desc`
for the keywords argument; and `resolved_issues` the number of that
assignee's issues whose `status` equals the literal `"Resolved"`
case-sensitively; the score is `2*component + keyword + resolved`. -/
theorem c2_expertise_counts (db : DB) (p : String) (comp kw : Option String)
    (r : ExpertiseResult) (ids : List BVal)
    (hr : analyze_developer_expertise db p comp kw = .ok r)
    (hids : _get_issue_system_ids db p = .ok ids)
    (hnn : ids.all (fun v => !beqV v .null) = true) :
    ∀ rec ∈ r.recommendations, ∃ a, truthy a = true ∧
      rec.developer_id = pyStr a ∧
      rec.component_experience = (match comp with
        | some c => if c.isEmpty then 0 else specCompCountRe db ids a c
        | none => 0) ∧
      rec.keyword_experience = (match kw with
        | some k => if k.isEmpty then 0 else specKwCountRe db ids a k
        | none => 0) ∧
      rec.resolved_issues = specResolvedCount db ids a ∧
      rec.expertise_score =
        rec.component_experience * 2 + rec.keyword_experience + rec.resolved_issues := by
  unfold analyze_developer_expertise at hr
  cases ha : get_project_assignees db p none none none none with
  | error e => simp only [ha] at hr; exact Except.noConfusion hr
  | ok ares =>
    simp only [ha, analyzeLoop_char db p comp kw ids hids ares.assignees,
      Except.ok.injEq] at hr
    subst hr
    intro rec hrec
    obtain ⟨a, hmem, hta, heq, hpos⟩ :=
      mem_loopRecs db ids comp kw ares.assignees rec
        ((mem_sortScoreDesc rec _).mp (List.mem_of_mem_take hrec))
    subst heq
    refine ⟨a, hta, rfl, ?_, ?_, ?_, rfl⟩
    · show (match comp with
        | some c => if c.isEmpty then 0
          else countDocs (db.get "issue") (componentQuery ids a c)
        | none => 0) = _
      cases comp with
      | none => rfl
      | some c =>
          cases hc : c.isEmpty with
          | true => simp [hc]
          | false => simp [hc, countDocs_componentQuery db ids a c hta hnn]
    · show (match kw with
        | some k => if k.isEmpty then 0
          else countDocs (db.get "issue") (keywordQuery ids a k)
        | none => 0) = _
      cases kw with
      | none => rfl
      | some k =>
          cases hk : k.isEmpty with
          | true => simp [hk]
          | false => simp [hk, countDocs_keywordQuery db ids a k hta hnn]
    · exact countDocs_resolvedQuery db ids a hta hnn

/-- Witness for the amended C2, instantiated at the one recommendation of
the regex example store. -/
theorem c2_expertise_counts_witness :
    ∃ a, truthy a = true ∧
      (Recommendation.mk "AAAA" "Dev-AAAA" 2 1 0 0).developer_id = pyStr a ∧
      (Recommendation.mk "AAAA" "Dev-AAAA" 2 1 0 0).component_experience =
        (match (some "a.c" : Option String) with
         | some c => if c.isEmpty then 0 else specCompCountRe exdb2 [oidS] a c
         | none => 0) ∧
      (Recommendation.mk "AAAA" "Dev-AAAA" 2 1 0 0).keyword_experience =
        (match (none : Option String) with
         | some k => if k.isEmpty then 0 else specKwCountRe exdb2 [oidS] a k
         | none => 0) ∧
      (Recommendation.mk "AAAA" "Dev-AAAA" 2 1 0 0).resolved_issues =
        specResolvedCount exdb2 [oidS] a ∧
      (Recommendation.mk "AAAA" "Dev-AAAA" 2 1 0 0).expertise_score =
        (Recommendation.mk "AAAA" "Dev-AAAA" 2 1 0 0).component_experience * 2 +
          (Recommendation.mk "AAAA" "Dev-AAAA" 2 1 0 0).keyword_experience +
          (Recommendation.mk "AAAA" "Dev-AAAA" 2 1 0 0).resolved_issues :=
  c2_expertise_counts exdb2 "proj" (some "a.c") none
    ⟨[⟨"AAAA", "Dev-AAAA", 2, 1, 0, 0⟩], 1⟩ [oidS]
    (by rfl) (by rfl) (by decide)
    ⟨"AAAA", "Dev-AAAA", 2, 1, 0, 0⟩ (by simp)

end SPB
